import Mathlib

/-!
# go-trylock: a reader-writer lock with timed acquisition

Embedding of `src/trylock.go`.  The program is concurrent, so it is embedded
as a small-step machine: every goroutine has a program counter and its local
variables, and one step of a goroutine performs exactly one access to shared
memory (an atomic operation on `*m.v`, a critical section on `m.ch` guarded by
`m.chLock`, a channel operation, or a reading of the clock) together with the
purely local computation that follows it.  A schedule is a list of events; the
scheduler also owns the passing of time.

Conventions:
* `*m.v` is an `int32`; it is an `Int` here and every arithmetic result is
  reduced by `wrap32`.
* A channel is identified by a number; the channels of this program are never
  sent on, only closed, so the heap keeps the list of closed channels.
* Times and durations are exact integers (nanoseconds).
* A goroutine whose call panics stops there; the other goroutines go on, as
  when the panic is recovered (the tests of the repository do so).
* `writers` and `readers` are ghost counters: the acquisitions (successful
  compare-and-swaps of `TryLock` / `RTryLock`) not yet released.  No step
  reads them.
-/

namespace trylock

/-- Identity of a channel made by `make(chan struct{}, 1)`. -/
abbrev Gate := Nat

/-- Reduction of an integer to the `int32` range (two's complement). -/
def wrap32 (x : Int) : Int := (x + 2147483648) % 4294967296 - 2147483648

/-- The fields `v` and `ch` of `MutexLock` (lines 10-20); `chLock` only makes
the accesses to `ch` atomic and is represented by the atomicity of steps. -/
structure MutexLock where
  v : Int
  ch : Gate
deriving DecidableEq, Repr

/-- The exported methods a goroutine can call. -/
inductive Op
  | TryLock (timeout : Int)
  | RTryLock (timeout : Int)
  | Lock
  | RLock
  | Unlock
  | RUnlock
deriving DecidableEq, Repr

/-- Program points: the next shared access a goroutine is about to perform. -/
inductive PC
  | tl_deadline  -- line 37: deadline := time.Now().Add(timeout)
  | tl_cas       -- line 40: atomic.CompareAndSwapInt32(m.v, 0, -1)
  | tl_getch     -- lines 45-47: ch := m.ch under chLock, then the test of line 50
  | tl_recv      -- line 52: <-ch
  | tl_until     -- lines 54-58: elapsed := time.Until(deadline), test elapsed <= 0
  | tl_after     -- line 63: time.After(elapsed) starts the timer
  | tl_select    -- lines 60-66: select on ch and the timer
  | rtl_deadline -- line 75
  | rtl_load     -- lines 78-79: n := atomic.LoadInt32(m.v), test n >= 0
  | rtl_cas      -- line 80: atomic.CompareAndSwapInt32(m.v, n, n+1)
  | rtl_getch    -- lines 86-88, then the test of line 91
  | rtl_recv     -- line 93
  | rtl_until    -- lines 95-99
  | rtl_after    -- line 104
  | rtl_select   -- lines 101-107
  | ul_cas       -- lines 124-126: atomic.CompareAndSwapInt32(m.v, -1, 0)
  | rul_add      -- lines 133-140: n := atomic.AddInt32(m.v, -1) and both tests
  | bc_make      -- line 144: newCh := make(chan struct{}, 1)
  | bc_swap      -- lines 146-149: ch := m.ch; m.ch = newCh under chLock
  | bc_close     -- line 152: close(ch)
deriving DecidableEq, Repr

/-- Local variables of the running call (zero until assigned). -/
structure Locals where
  timeout : Int := 0
  deadline : Int := 0
  n : Int := 0
  ch : Gate := 0
  newCh : Gate := 0
  elapsed : Int := 0
  expiry : Int := 0
deriving DecidableEq, Repr

/-- State of one goroutine. -/
inductive Thread
  | idle
  | running (op : Op) (pc : PC) (l : Locals)
  | returned (op : Op) (r : Option Bool)
  | panicked (op : Op) (msg : String)
deriving DecidableEq, Repr

/-- The lock, the part of the heap and of the runtime it depends on, and the
goroutines using it. -/
structure World where
  m : MutexLock
  closed : List Gate
  nextGate : Gate
  now : Int
  writers : Nat
  readers : Nat
  threads : Nat → Thread

/-- What the scheduler can do: let an idle goroutine call a method, let a
goroutine take its next step (`pick` decides a select whose two cases are both
ready: true takes the channel), or let time pass. -/
inductive Event
  | call (t : Nat) (op : Op)
  | step (t : Nat) (pick : Bool)
  | tick (d : Nat)
deriving DecidableEq, Repr

/-- The world right after `New()` (lines 26-30): state 0 and a fresh channel. -/
def New : World :=
  { m := { v := 0, ch := 0 }, closed := [], nextGate := 1, now := 0,
    writers := 0, readers := 0, threads := fun _ => Thread.idle }

/-- Replace the state of goroutine `t`. -/
def World.setThread (w : World) (t : Nat) (s : Thread) : World :=
  { w with threads := Function.update w.threads t s }

/-- Move goroutine `t` to program point `pc` with locals `l`. -/
def World.goto (w : World) (t : Nat) (op : Op) (pc : PC) (l : Locals) : World :=
  w.setThread t (Thread.running op pc l)

/-- Return `b` from `TryLock` / `RTryLock`; `Lock` (lines 113-115) and `RLock`
(lines 118-120) drop it. -/
def World.retBool (w : World) (t : Nat) (op : Op) (b : Bool) : World :=
  w.setThread t (Thread.returned op
    (match op with
     | Op.Lock => none
     | Op.RLock => none
     | _ => some b))

/-- Return from `Unlock` / `RUnlock`. -/
def World.retUnit (w : World) (t : Nat) (op : Op) : World :=
  w.setThread t (Thread.returned op none)

/-- The call ends in `panic(msg)`. -/
def World.panic (w : World) (t : Nat) (op : Op) (msg : String) : World :=
  w.setThread t (Thread.panicked op msg)

/-- Semantics of `atomic.CompareAndSwapInt32(m.v, old, new)`. -/
def World.CompareAndSwapInt32 (w : World) (old new : Int) : Bool × World :=
  if w.m.v = old then (true, { w with m := { w.m with v := new } }) else (false, w)

/-- Semantics of `atomic.AddInt32(m.v, delta)`: the new value and the world. -/
def World.AddInt32 (w : World) (delta : Int) : Int × World :=
  (wrap32 (w.m.v + delta), { w with m := { w.m with v := wrap32 (w.m.v + delta) } })

/-- First program point and locals of a call. -/
def entry : Op → PC × Locals
  | Op.TryLock timeout => (PC.tl_deadline, { timeout := timeout })
  | Op.RTryLock timeout => (PC.rtl_deadline, { timeout := timeout })
  | Op.Lock => (PC.tl_deadline, { timeout := -1 })
  | Op.RLock => (PC.rtl_deadline, { timeout := -1 })
  | Op.Unlock => (PC.ul_cas, {})
  | Op.RUnlock => (PC.rul_add, {})

/-- One step of `TryLock` (lines 35-69). -/
def TryLock (w : World) (t : Nat) (op : Op) (pc : PC) (l : Locals) (pick : Bool) : World :=
  match pc with
  | PC.tl_deadline => w.goto t op PC.tl_cas { l with deadline := w.now + l.timeout }
  | PC.tl_cas =>
    if (w.CompareAndSwapInt32 0 (-1)).1 then
      ({ (w.CompareAndSwapInt32 0 (-1)).2 with writers := w.writers + 1 }).retBool t op true
    else w.goto t op PC.tl_getch l
  | PC.tl_getch =>
    if l.timeout < 0 then w.goto t op PC.tl_recv { l with ch := w.m.ch }
    else w.goto t op PC.tl_until { l with ch := w.m.ch }
  | PC.tl_recv =>
    if l.ch ∈ w.closed then w.goto t op PC.tl_cas l else w
  | PC.tl_until =>
    if l.deadline - w.now ≤ 0 then w.retBool t op false
    else w.goto t op PC.tl_after { l with elapsed := l.deadline - w.now }
  | PC.tl_after => w.goto t op PC.tl_select { l with expiry := w.now + l.elapsed }
  | PC.tl_select =>
    if l.ch ∈ w.closed then
      if w.now ≥ l.expiry then
        if pick then w.goto t op PC.tl_cas l else w.retBool t op false
      else w.goto t op PC.tl_cas l
    else
      if w.now ≥ l.expiry then w.retBool t op false else w
  | _ => w

/-- One step of `RTryLock` (lines 73-110). -/
def RTryLock (w : World) (t : Nat) (op : Op) (pc : PC) (l : Locals) (pick : Bool) : World :=
  match pc with
  | PC.rtl_deadline => w.goto t op PC.rtl_load { l with deadline := w.now + l.timeout }
  | PC.rtl_load =>
    if w.m.v ≥ 0 then w.goto t op PC.rtl_cas { l with n := w.m.v }
    else w.goto t op PC.rtl_getch { l with n := w.m.v }
  | PC.rtl_cas =>
    if (w.CompareAndSwapInt32 l.n (wrap32 (l.n + 1))).1 then
      ({ (w.CompareAndSwapInt32 l.n (wrap32 (l.n + 1))).2 with
          readers := w.readers + 1 }).retBool t op true
    else w.goto t op PC.rtl_getch l
  | PC.rtl_getch =>
    if l.timeout < 0 then w.goto t op PC.rtl_recv { l with ch := w.m.ch }
    else w.goto t op PC.rtl_until { l with ch := w.m.ch }
  | PC.rtl_recv =>
    if l.ch ∈ w.closed then w.goto t op PC.rtl_load l else w
  | PC.rtl_until =>
    if l.deadline - w.now ≤ 0 then w.retBool t op false
    else w.goto t op PC.rtl_after { l with elapsed := l.deadline - w.now }
  | PC.rtl_after => w.goto t op PC.rtl_select { l with expiry := w.now + l.elapsed }
  | PC.rtl_select =>
    if l.ch ∈ w.closed then
      if w.now ≥ l.expiry then
        if pick then w.goto t op PC.rtl_load l else w.retBool t op false
      else w.goto t op PC.rtl_load l
    else
      if w.now ≥ l.expiry then w.retBool t op false else w
  | _ => w

/-- One step of `broadcast` (lines 143-153), called by `Unlock` and `RUnlock`.
Closing a closed channel is a run-time panic. -/
def broadcast (w : World) (t : Nat) (op : Op) (pc : PC) (l : Locals) : World :=
  match pc with
  | PC.bc_make =>
    ({ w with nextGate := w.nextGate + 1 }).goto t op PC.bc_swap { l with newCh := w.nextGate }
  | PC.bc_swap =>
    ({ w with m := { w.m with ch := l.newCh } }).goto t op PC.bc_close { l with ch := w.m.ch }
  | PC.bc_close =>
    if l.ch ∈ w.closed then w.panic t op "close of closed channel"
    else ({ w with closed := l.ch :: w.closed }).retUnit t op
  | _ => w

/-- The step of `Unlock` before `broadcast` (lines 123-129). -/
def Unlock (w : World) (t : Nat) (op : Op) (l : Locals) : World :=
  if (w.CompareAndSwapInt32 (-1) 0).1 then
    ({ (w.CompareAndSwapInt32 (-1) 0).2 with writers := w.writers - 1 }).goto t op PC.bc_make l
  else w.panic t op "Unlock() failed"

/-- The step of `RUnlock` before `broadcast` (lines 132-141). -/
def RUnlock (w : World) (t : Nat) (op : Op) (l : Locals) : World :=
  let w1 := { (w.AddInt32 (-1)).2 with readers := w.readers - 1 }
  let l1 := { l with n := (w.AddInt32 (-1)).1 }
  if l1.n < 0 then w1.panic t op "RUnlock() failed"
  else if l1.n = 0 then w1.goto t op PC.bc_make l1
  else w1.retUnit t op

/-- The step of a goroutine at program point `pc`: the statement of the
function the point lies in. -/
def exec (w : World) (t : Nat) (op : Op) (pc : PC) (l : Locals) (pick : Bool) : World :=
  match pc with
  | PC.tl_deadline | PC.tl_cas | PC.tl_getch | PC.tl_recv
  | PC.tl_until | PC.tl_after | PC.tl_select => TryLock w t op pc l pick
  | PC.rtl_deadline | PC.rtl_load | PC.rtl_cas | PC.rtl_getch | PC.rtl_recv
  | PC.rtl_until | PC.rtl_after | PC.rtl_select => RTryLock w t op pc l pick
  | PC.ul_cas => Unlock w t op l
  | PC.rul_add => RUnlock w t op l
  | PC.bc_make | PC.bc_swap | PC.bc_close => broadcast w t op pc l

/-- One step of goroutine `t`; a goroutine that is not inside a call, or is
blocked, leaves the world as it is. -/
def step (w : World) (t : Nat) (pick : Bool) : World :=
  match w.threads t with
  | Thread.running op pc l => exec w t op pc l pick
  | _ => w

/-- A goroutine can call a method when it is not inside a call and has not
panicked. -/
def Thread.callable : Thread → Bool
  | Thread.idle => true
  | Thread.returned _ _ => true
  | _ => false

/-- Goroutine `t` calls `op`. -/
def call (w : World) (t : Nat) (op : Op) : World :=
  if (w.threads t).callable then w.goto t op (entry op).1 (entry op).2 else w

/-- Effect of one event. -/
def apply (w : World) : Event → World
  | Event.call t op => call w t op
  | Event.step t pick => step w t pick
  | Event.tick d => { w with now := w.now + d }

/-- Effect of a schedule. -/
def run (w : World) (es : List Event) : World := es.foldl apply w

/-! ## Schedules and predicates used to state the properties -/

/-- The release that the event is about to make effective is backed by a
holder: the compare-and-swap of `Unlock` runs only while a write acquisition
is outstanding, the decrement of `RUnlock` only while a read acquisition is. -/
def Allowed (w : World) : Event → Prop
  | Event.step t _ =>
    match w.threads t with
    | Thread.running _ PC.ul_cas _ => 1 ≤ w.writers
    | Thread.running _ PC.rul_add _ => 1 ≤ w.readers
    | _ => True
  | _ => True

/-- A schedule in which `Unlock` is only issued by the write holder and
`RUnlock` only by a read holder. -/
def Respectful : World → List Event → Prop
  | _, [] => True
  | w, e :: es => Allowed w e ∧ Respectful (apply w e) es

/-- Along the schedule at most `2^31 - 1` read acquisitions are outstanding
at any time. -/
def ReadersBounded : World → List Event → Prop
  | w, [] => w.readers ≤ 2147483647
  | w, e :: es => w.readers ≤ 2147483647 ∧ ReadersBounded (apply w e) es

/-- What the state encodes: either no writer and `v` readers, or one writer,
no reader and `v = -1`. -/
def Encodes (w : World) : Prop :=
  -1 ≤ w.m.v ∧ (w.m.v = -1 ↔ w.writers = 1 ∧ w.readers = 0) ∧
    (w.m.v ≠ -1 → w.writers = 0 ∧ w.m.v = (w.readers : Int))

/-- Goroutine `t` calls `RLock` and runs it alone up to the first attempt. -/
def rlockOnce (t : Nat) : List Event :=
  [Event.call t Op.RLock, Event.step t false, Event.step t false, Event.step t false]

/-- The schedule `rlockOnce t` repeated `n` times. -/
def rlockMany (t : Nat) : Nat → List Event
  | 0 => []
  | n + 1 => rlockOnce t ++ rlockMany t n

/-- Goroutine 0 takes the write lock, goroutine 1 tries a read lock once, and
goroutine 0 starts to release. -/
def lockThenUnlock : List Event :=
  [Event.call 0 Op.Lock, Event.step 0 false, Event.step 0 false,
   Event.call 1 (Op.RTryLock 0), Event.step 1 false, Event.step 1 false,
   Event.call 0 Op.Unlock, Event.step 0 false, Event.step 0 false]

/-- The disjunctive form of `Encodes`. -/
def Held (w : World) : Prop :=
  (w.writers = 0 ∧ w.m.v = (w.readers : Int)) ∨
    (w.writers = 1 ∧ w.readers = 0 ∧ w.m.v = -1)

/-- Program points of the timed branch (lines 54-66 and 95-107). -/
def PC.timed : PC → Bool
  | PC.tl_until | PC.tl_after | PC.tl_select => true
  | PC.rtl_until | PC.rtl_after | PC.rtl_select => true
  | _ => false

/-- Program points inside the body of `TryLock`. -/
def PC.inTryLock : PC → Bool
  | PC.tl_deadline | PC.tl_cas | PC.tl_getch | PC.tl_recv
  | PC.tl_until | PC.tl_after | PC.tl_select => true
  | _ => false

/-- Program points inside the body of `RTryLock`. -/
def PC.inRTryLock : PC → Bool
  | PC.rtl_deadline | PC.rtl_load | PC.rtl_cas | PC.rtl_getch | PC.rtl_recv
  | PC.rtl_until | PC.rtl_after | PC.rtl_select => true
  | _ => false

/-- Program points inside the body of `broadcast`. -/
def PC.inBroadcast : PC → Bool
  | PC.bc_make | PC.bc_swap | PC.bc_close => true
  | _ => false

/-- Consistency of a goroutine with the call it executes: the program point
lies in the body of the called method, `timeout` is the argument, the timed
branch is only entered with a non-negative timeout, and the value `n` that
`RTryLock` is about to compare against passed the test `n >= 0`.  A call with
a negative timeout that has returned has returned true; the other methods
return no value. -/
def Thread.ok : Thread → Prop
  | Thread.running op pc l =>
    (match op with
     | Op.TryLock d => pc.inTryLock = true ∧ l.timeout = d
     | Op.Lock => pc.inTryLock = true ∧ l.timeout = -1
     | Op.RTryLock d => pc.inRTryLock = true ∧ l.timeout = d
     | Op.RLock => pc.inRTryLock = true ∧ l.timeout = -1
     | Op.Unlock => pc = PC.ul_cas ∨ pc.inBroadcast = true
     | Op.RUnlock => pc = PC.rul_add ∨ pc.inBroadcast = true)
    ∧ (l.timeout < 0 → pc.timed = false)
    ∧ (pc = PC.rtl_cas → 0 ≤ l.n)
  | Thread.returned op r =>
    (match op with
     | Op.TryLock d => d < 0 → r = some true
     | Op.RTryLock d => d < 0 → r = some true
     | _ => r = none)
  | _ => True

/-- The channel a goroutine inside `broadcast` holds privately: the new channel
before the swap, the replaced one after it. -/
def Thread.owned : Thread → Option Gate
  | Thread.running _ PC.bc_swap l => some l.newCh
  | Thread.running _ PC.bc_close l => some l.ch
  | _ => none

/-- Invariant of the channels. -/
structure GateInv (w : World) : Prop where
  cur_lt : w.m.ch < w.nextGate
  cur_open : w.m.ch ∉ w.closed
  closed_lt : ∀ g ∈ w.closed, g < w.nextGate
  closed_nodup : w.closed.Nodup
  own_lt : ∀ t g, (w.threads t).owned = some g → g < w.nextGate
  own_open : ∀ t g, (w.threads t).owned = some g → g ∉ w.closed
  own_cur : ∀ t g, (w.threads t).owned = some g → g ≠ w.m.ch
  own_inj : ∀ t t' g, (w.threads t).owned = some g → (w.threads t').owned = some g → t = t'

/-- The worlds reachable from `New()` by some schedule. -/
def Reachable (w : World) : Prop := ∃ es, run New es = w

/-- Goroutine `t` takes `n` steps in a row. -/
def steps (t : Nat) (n : Nat) : List Event := List.replicate n (Event.step t false)

/-- Goroutine `t` calls `Lock` and runs alone for the two steps of a first
successful attempt. -/
def lockOnce (t : Nat) : List Event := Event.call t Op.Lock :: steps t 2

/-- Goroutine `t` calls `Unlock` and runs alone for the four steps of the
longest path through it (compare-and-swap, then the three of `broadcast`). -/
def unlockOnce (t : Nat) : List Event := Event.call t Op.Unlock :: steps t 4

/-- Goroutine `t` calls `RUnlock` and runs alone for the four steps of the
longest path through it. -/
def runlockOnce (t : Nat) : List Event := Event.call t Op.RUnlock :: steps t 4

/-- Only goroutine `t` runs, and time passes. -/
def Solo (t : Nat) : List Event → Prop
  | [] => True
  | Event.step s _ :: es => s = t ∧ Solo t es
  | Event.tick _ :: es => Solo t es
  | Event.call _ _ :: _ => False

/-- Number of steps from a program point of the timed loop to its select. -/
def PC.rank : PC → Nat
  | PC.tl_deadline => 5
  | PC.tl_cas => 4
  | PC.tl_getch => 3
  | PC.tl_until => 2
  | PC.tl_after => 1
  | PC.rtl_deadline => 5
  | PC.rtl_load => 4
  | PC.rtl_getch => 3
  | PC.rtl_until => 2
  | PC.rtl_after => 1
  | _ => 0

/-- What the locals of a timed attempt satisfy while nothing else runs. -/
def Pending (timeout : Int) (w : World) (pc : PC) (l : Locals) : Prop :=
  match pc with
  | PC.tl_deadline => w.m.v ≠ 0
  | PC.rtl_deadline => w.m.v < 0
  | PC.tl_cas | PC.tl_getch => w.m.v ≠ 0 ∧ l.deadline ≤ w.now + timeout
  | PC.rtl_load | PC.rtl_getch => w.m.v < 0 ∧ l.deadline ≤ w.now + timeout
  | PC.tl_until => w.m.v ≠ 0 ∧ l.deadline ≤ w.now + timeout ∧ l.ch = w.m.ch
  | PC.rtl_until => w.m.v < 0 ∧ l.deadline ≤ w.now + timeout ∧ l.ch = w.m.ch
  | PC.tl_after => w.m.v ≠ 0 ∧ l.elapsed ≤ timeout ∧ l.ch = w.m.ch
  | PC.rtl_after => w.m.v < 0 ∧ l.elapsed ≤ timeout ∧ l.ch = w.m.ch
  | PC.tl_select => w.m.v ≠ 0 ∧ l.expiry ≤ w.now + timeout ∧ l.ch = w.m.ch
  | PC.rtl_select => w.m.v < 0 ∧ l.expiry ≤ w.now + timeout ∧ l.ch = w.m.ch
  | _ => False

/-- State of a timed attempt of goroutine `t` that started in `w0` and runs
alone: the lock and the closed channels are as in `w0`, and the goroutine has
returned false or is at most `k` steps from the select. -/
def Waiting (w0 : World) (t : Nat) (op : Op) (timeout : Int) (k : Nat) (w : World) : Prop :=
  w.m = w0.m ∧ w.closed = w0.closed ∧
  match w.threads t with
  | Thread.returned op1 r => op1 = op ∧ r = some false
  | Thread.running op1 pc l =>
    op1 = op ∧ l.timeout = timeout ∧ pc.rank ≤ k ∧ Pending timeout w pc l
  | _ => False

/-- The schedule `es` repeated `n` times. -/
def times : Nat → List Event → List Event
  | 0, _ => []
  | n + 1, es => es ++ times n es

/-- Goroutine `t` takes one step after each of the given delays. -/
def paced (t : Nat) : List Nat → List Event
  | [] => []
  | d :: ds => Event.tick d :: Event.step t false :: paced t ds

/-- Goroutine `t` calls `TryLock(0)` and runs alone for the four steps of a
failed single attempt. -/
def tryLockZero (t : Nat) : List Event := Event.call t (Op.TryLock 0) :: steps t 4

/-- Goroutine `t` calls `RTryLock(0)` and runs alone for the three steps of a
first attempt (deadline, load, compare-and-swap). -/
def rtryLockZero (t : Nat) : List Event := Event.call t (Op.RTryLock 0) :: steps t 3

/-- Goroutine `t` calls `RTryLock(timeout)` and runs alone for `n` steps. -/
def rtryLock (t : Nat) (timeout : Int) (n : Nat) : List Event :=
  Event.call t (Op.RTryLock timeout) :: steps t n

/-- The lost wake-up.  Goroutine 0 holds the write lock; goroutine 1 calls
`TryLock(200)`, fixes its deadline at 200 and fails its compare-and-swap; at
time 50 goroutine 0 runs `Unlock()` to the end (state 0, new channel installed,
old channel closed); only then goroutine 1 takes its snapshot of the current
channel, which is the new one, computes 150 until the deadline, starts the
timer and selects; nothing closes the new channel, and at time 200 the timer
fires. -/
def lostWakeup : List Event :=
  lockOnce 0 ++
  [Event.call 1 (Op.TryLock 200), Event.step 1 false, Event.step 1 false, Event.tick 50] ++
  unlockOnce 0 ++
  [Event.step 1 false, Event.step 1 false, Event.step 1 false, Event.step 1 false,
   Event.tick 150, Event.step 1 false]

/-- The schedule of `TestMutexLockTryLockTimeout`: goroutine 1 is already
blocked in its select on the current channel when, at time 50, goroutine 0 runs
`Unlock()`; goroutine 1 is woken and retries. -/
def wakePath : List Event :=
  lockOnce 0 ++
  [Event.call 1 (Op.TryLock 200), Event.step 1 false, Event.step 1 false,
   Event.step 1 false, Event.step 1 false, Event.step 1 false, Event.step 1 false,
   Event.tick 50] ++
  unlockOnce 0 ++
  [Event.step 1 false, Event.step 1 false]

instance decAllowed (w : World) (e : Event) : Decidable (Allowed w e) := by
  cases e with
  | call t op => exact isTrue trivial
  | tick d => exact isTrue trivial
  | step t p =>
    simp only [Allowed]
    split <;> infer_instance

instance decRespectful : (w : World) → (es : List Event) → Decidable (Respectful w es)
  | _, [] => isTrue trivial
  | w, e :: es =>
    match decAllowed w e, decRespectful (apply w e) es with
    | isTrue h1, isTrue h2 => isTrue ⟨h1, h2⟩
    | isFalse h1, _ => isFalse (fun h => h1 h.1)
    | _, isFalse h2 => isFalse (fun h => h2 h.2)

instance decReadersBounded :
    (w : World) → (es : List Event) → Decidable (ReadersBounded w es)
  | w, [] => inferInstanceAs (Decidable (w.readers ≤ 2147483647))
  | w, e :: es =>
    match inferInstanceAs (Decidable (w.readers ≤ 2147483647)),
      decReadersBounded (apply w e) es with
    | isTrue h1, isTrue h2 => isTrue ⟨h1, h2⟩
    | isFalse h1, _ => isFalse (fun h => h1 h.1)
    | _, isFalse h2 => isFalse (fun h => h2 h.2)

instance decEncodes (w : World) : Decidable (Encodes w) := by
  unfold Encodes; infer_instance

instance decSolo (t : Nat) : (es : List Event) → Decidable (Solo t es)
  | [] => isTrue trivial
  | Event.call _ _ :: _ => isFalse (fun h => h)
  | Event.tick _ :: es => decSolo t es
  | Event.step s _ :: es =>
    match inferInstanceAs (Decidable (s = t)), decSolo t es with
    | isTrue h1, isTrue h2 => isTrue ⟨h1, h2⟩
    | isFalse h1, _ => isFalse (fun h => h1 h.1)
    | _, isFalse h2 => isFalse (fun h => h2 h.2)

/-- The interleaving of one `Unlock()` and one `TryLock(-1)` in which the
wake-up is missed.  Goroutine 0 holds the write lock.  Goroutine 1 calls
`TryLock(-1)` and fails its compare-and-swap (line 40).  Goroutine 0 calls
`Unlock()`: it writes the state 0 (line 124), makes a channel (line 144) and
swaps it in (lines 146-149).  Goroutine 1 now takes its snapshot of the current
channel (lines 45-47), which is the new one.  Goroutine 0 closes the old
channel (line 152) and returns. -/
def missedWake : List Event :=
  lockOnce 0 ++
  [Event.call 1 (Op.TryLock (-1)), Event.step 1 false, Event.step 1 false] ++
  [Event.call 0 Op.Unlock, Event.step 0 false, Event.step 0 false, Event.step 0 false] ++
  [Event.step 1 false] ++
  [Event.step 0 false]

/-- A schedule without further calls: no lock or unlock activity starts. -/
def NoCalls : List Event → Prop
  | [] => True
  | Event.call _ _ :: _ => False
  | Event.step _ _ :: es => NoCalls es
  | Event.tick _ :: es => NoCalls es

instance decNoCalls : (es : List Event) → Decidable (NoCalls es)
  | [] => isTrue trivial
  | Event.call _ _ :: _ => isFalse (fun h => h)
  | Event.step _ _ :: es => decNoCalls es
  | Event.tick _ :: es => decNoCalls es

/-- The channel `g` is closed or about to be: it is closed already, or it is
current while some goroutine is in `broadcast` before its swap, or a goroutine
that swapped it out is about to close it. -/
def FiringDue (w : World) (g : Gate) : Prop :=
  g ∈ w.closed ∨
  (g = w.m.ch ∧ ∃ t op l, w.threads t = Thread.running op PC.bc_make l ∨
    w.threads t = Thread.running op PC.bc_swap l) ∨
  (∃ t op l, w.threads t = Thread.running op PC.bc_close l ∧ l.ch = g)

theorem run_nil (w : World) : run w [] = w := rfl

theorem run_cons (w : World) (e : Event) (es : List Event) :
    run w (e :: es) = run (apply w e) es := rfl

theorem run_append (w : World) (es fs : List Event) :
    run w (es ++ fs) = run (run w es) fs := by
  simp [run, List.foldl_append]

theorem step_running (w : World) (t : Nat) (p : Bool) (op : Op) (pc : PC) (l : Locals)
    (h : w.threads t = Thread.running op pc l) : step w t p = exec w t op pc l p := by
  simp only [step, h]

theorem step_not_running (w : World) (t : Nat) (p : Bool)
    (h : ∀ op pc l, w.threads t ≠ Thread.running op pc l) : step w t p = w := by
  unfold step
  split
  · rename_i op pc l hth
    exact absurd hth (h op pc l)
  · rfl

theorem step_threads_other (w : World) (t t' : Nat) (p : Bool) (h : t' ≠ t) :
    (step w t p).threads t' = w.threads t' := by
  unfold step
  split
  · rename_i op pc l hth
    cases pc <;>
    simp only [exec, TryLock, RTryLock, Unlock, RUnlock, broadcast, World.goto,
      World.retBool, World.retUnit, World.panic, World.setThread,
      World.CompareAndSwapInt32, World.AddInt32] <;>
    (try split_ifs) <;> simp [Function.update_noteq h]
  · rfl

theorem ok_step (w : World) (t : Nat) (p : Bool) (h : ∀ t', (w.threads t').ok) :
    ∀ t', ((step w t p).threads t').ok := by
  intro t'
  by_cases ht : t' = t
  · subst ht
    have h0 := h t'
    unfold step
    split
    · rename_i op pc l hth
      rw [hth] at h0
      cases pc <;>
      simp only [exec, TryLock, RTryLock, Unlock, RUnlock, broadcast, World.goto,
        World.retBool, World.retUnit, World.panic, World.setThread,
        World.CompareAndSwapInt32, World.AddInt32] <;>
      (try split_ifs) <;>
      simp only [Function.update_same, Thread.ok, hth] <;>
      cases op <;>
      simp [Thread.ok, PC.inTryLock, PC.inRTryLock, PC.inBroadcast, PC.timed] at h0 ⊢ <;>
      (try omega)
    · exact h0
  · rw [step_threads_other w t t' p ht]; exact h t'

theorem ok_call (w : World) (t : Nat) (op : Op) (h : ∀ t', (w.threads t').ok) :
    ∀ t', ((call w t op).threads t').ok := by
  intro t'
  unfold call
  split_ifs
  · simp only [World.goto, World.setThread, Function.update_apply]
    split_ifs
    · cases op <;> simp [Thread.ok, entry, PC.inTryLock, PC.inRTryLock, PC.timed]
    · exact h t'
  · exact h t'

theorem call_shared (w : World) (t : Nat) (op : Op) :
    (call w t op).m = w.m ∧ (call w t op).closed = w.closed ∧
    (call w t op).nextGate = w.nextGate ∧ (call w t op).now = w.now ∧
    (call w t op).writers = w.writers ∧ (call w t op).readers = w.readers := by
  unfold call
  split_ifs <;> simp [World.goto, World.setThread]

/-- Every step either leaves the state cell and the holders alone or is one of
the four atomic operations on it. -/
theorem step_cell (w : World) (t : Nat) (p : Bool) :
    ((step w t p).m.v = w.m.v ∧ (step w t p).writers = w.writers ∧
      (step w t p).readers = w.readers) ∨
    (∃ op l, w.threads t = Thread.running op PC.tl_cas l ∧ w.m.v = 0 ∧
      (step w t p).m.v = -1 ∧ (step w t p).writers = w.writers + 1 ∧
      (step w t p).readers = w.readers) ∨
    (∃ op l, w.threads t = Thread.running op PC.rtl_cas l ∧ w.m.v = l.n ∧
      (step w t p).m.v = wrap32 (l.n + 1) ∧ (step w t p).writers = w.writers ∧
      (step w t p).readers = w.readers + 1) ∨
    (∃ op l, w.threads t = Thread.running op PC.ul_cas l ∧ w.m.v = -1 ∧
      (step w t p).m.v = 0 ∧ (step w t p).writers = w.writers - 1 ∧
      (step w t p).readers = w.readers) ∨
    (∃ op l, w.threads t = Thread.running op PC.rul_add l ∧
      (step w t p).m.v = wrap32 (w.m.v + -1) ∧ (step w t p).writers = w.writers ∧
      (step w t p).readers = w.readers - 1) := by
  by_cases h : ∃ op pc l, w.threads t = Thread.running op pc l
  · obtain ⟨op, pc, l, hth⟩ := h
    rw [step_running w t p op pc l hth]
    cases pc <;>
    simp only [exec, TryLock, RTryLock, Unlock, RUnlock, broadcast, World.goto,
      World.retBool, World.retUnit, World.panic, World.setThread,
      World.CompareAndSwapInt32, World.AddInt32] <;>
    (try split_ifs) <;>
    first
    | (simp_all; done)
    | exact Or.inr (Or.inr (Or.inl ⟨op, l, by simp_all⟩))
  · left
    rw [step_not_running w t p (by intro op pc l hh; exact h ⟨op, pc, l, hh⟩)]
    simp

theorem ok_apply (w : World) (e : Event) (h : ∀ t', (w.threads t').ok) :
    ∀ t', ((apply w e).threads t').ok := by
  cases e with
  | call t op => exact ok_call w t op h
  | step t p => exact ok_step w t p h
  | tick d => exact h

theorem ok_run (es : List Event) (w : World) (h : ∀ t', (w.threads t').ok) :
    ∀ t', ((run w es).threads t').ok := by
  induction es generalizing w with
  | nil => exact h
  | cons e es ih => exact ih (apply w e) (ok_apply w e h)

theorem ok_New : ∀ t', (New.threads t').ok := by
  intro t'; simp [New, Thread.ok]

theorem held_apply (w : World) (e : Event) (hok : ∀ t, (w.threads t).ok)
    (hb : w.readers ≤ 2147483647) (hb1 : (apply w e).readers ≤ 2147483647)
    (hA : Allowed w e) (hH : Held w) : Held (apply w e) := by
  cases e with
  | call t op =>
    obtain ⟨h1, -, -, -, h2, h3⟩ := call_shared w t op
    simp only [apply, Held, h1, h2, h3]
    exact hH
  | tick d => exact hH
  | step t p =>
    simp only [apply] at hb1 ⊢
    unfold Held at hH ⊢
    rcases step_cell w t p with ⟨h1, h2, h3⟩ | ⟨op, l, hth, hv, h1, h2, h3⟩ |
      ⟨op, l, hth, hv, h1, h2, h3⟩ | ⟨op, l, hth, hv, h1, h2, h3⟩ | ⟨op, l, hth, h1, h2, h3⟩
    · rw [h1, h2, h3]; exact hH
    · rw [h1, h2, h3]; omega
    · have h0 := hok t
      rw [hth] at h0
      have hn : 0 ≤ l.n := h0.2.2 rfl
      rw [h3] at hb1
      rw [h1, h2, h3]
      unfold wrap32
      omega
    · have hw : 1 ≤ w.writers := by
        have := hA
        simp only [Allowed, hth] at this
        exact this
      rw [h1, h2, h3]; omega
    · have hr : 1 ≤ w.readers := by
        have := hA
        simp only [Allowed, hth] at this
        exact this
      rw [h1, h2, h3]
      unfold wrap32
      omega

theorem encodes_of_held (w : World) (hb : w.readers ≤ 2147483647) (hH : Held w) :
    Encodes w := by
  unfold Held at hH
  unfold Encodes
  omega

theorem encodes_run (es : List Event) (w : World) (hok : ∀ t, (w.threads t).ok)
    (hH : Held w) (hR : Respectful w es) (hB : ReadersBounded w es) :
    Encodes (run w es) := by
  induction es generalizing w with
  | nil => exact encodes_of_held w hB hH
  | cons e es ih =>
    have hb1 : (apply w e).readers ≤ 2147483647 := by
      cases es with
      | nil => exact hB.2
      | cons f fs => exact hB.2.1
    exact ih (apply w e) (ok_apply w e hok) (held_apply w e hok hB.1 hb1 hR.1 hH) hR.2 hB.2

theorem respectful_append (es fs : List Event) (w : World) :
    Respectful w (es ++ fs) ↔ Respectful w es ∧ Respectful (run w es) fs := by
  induction es generalizing w with
  | nil => simp [Respectful, run]
  | cons e es ih => simp [Respectful, run_cons, ih, and_assoc]

theorem run_rlockOnce (w : World) (t : Nat) (hc : (w.threads t).callable = true)
    (hv : 0 ≤ w.m.v) :
    run w (rlockOnce t) =
      { w with m := { w.m with v := wrap32 (w.m.v + 1) }, readers := w.readers + 1,
               threads := Function.update w.threads t (Thread.returned Op.RLock none) } := by
  simp [rlockOnce, run, apply, call, hc, step, exec, RTryLock, entry, World.goto,
    World.setThread, World.retBool, World.CompareAndSwapInt32, hv]

theorem respectful_rlockOnce (w : World) (t : Nat) (hc : (w.threads t).callable = true)
    (hv : 0 ≤ w.m.v) : Respectful w (rlockOnce t) := by
  simp [Respectful, Allowed, rlockOnce, apply, call, hc, step, exec, RTryLock, entry,
    World.goto, World.setThread, World.retBool, World.CompareAndSwapInt32, hv]

/-- Result of `n` uncontended `RLock` calls in a row while the counter does not
pass `2^31`: the last increment may be the one that wraps. -/
theorem run_rlockMany (n : Nat) (w : World) (t : Nat)
    (hc : (w.threads t).callable = true) (hv : 0 ≤ w.m.v) (hv1 : w.m.v ≤ 2147483647)
    (hn : w.m.v + n ≤ 2147483648) :
    (run w (rlockMany t n)).m.v = wrap32 (w.m.v + n) ∧
    (run w (rlockMany t n)).m.ch = w.m.ch ∧
    (run w (rlockMany t n)).closed = w.closed ∧
    (run w (rlockMany t n)).readers = w.readers + n ∧
    (run w (rlockMany t n)).writers = w.writers ∧
    ((run w (rlockMany t n)).threads t).callable = true ∧
    (1 ≤ n → (run w (rlockMany t n)).threads t = Thread.returned Op.RLock none) ∧
    Respectful w (rlockMany t n) := by
  induction n generalizing w with
  | zero =>
    refine ⟨?_, rfl, rfl, rfl, rfl, hc, by simp, trivial⟩
    simp only [rlockMany, run_nil, wrap32]
    omega
  | succ n ih =>
    have h1 := run_rlockOnce w t hc hv
    have hr1 := respectful_rlockOnce w t hc hv
    simp only [rlockMany, run_append, respectful_append]
    rcases Nat.eq_zero_or_pos n with h0 | hpos
    · subst h0
      simp only [rlockMany, run_nil, h1, Function.update_same, Thread.callable,
        Nat.cast_add, Nat.cast_one, Nat.cast_zero, zero_add]
      exact ⟨trivial, trivial, trivial, trivial, trivial, trivial, fun _ => trivial,
        hr1, trivial⟩
    · have hw : wrap32 (w.m.v + 1) = w.m.v + 1 := by
        unfold wrap32; push_cast at hn; omega
      have ih1 := ih (run w (rlockOnce t))
        (by rw [h1]; simp [Thread.callable])
        (by rw [h1]; simp only [hw]; omega)
        (by rw [h1]; simp only [hw]; push_cast at hn; omega)
        (by rw [h1]; simp only [hw]; push_cast at hn ⊢; omega)
      obtain ⟨a1, a2, a3, a4, a5, a6, a7, a8⟩ := ih1
      refine ⟨?_, ?_, ?_, ?_, ?_, a6, fun _ => a7 hpos, hr1, a8⟩
      · rw [a1, h1]; simp only [hw]; push_cast; ring_nf
      · rw [a2, h1]
      · rw [a3, h1]
      · rw [a4, h1]; simp only; omega
      · rw [a5, h1]

/-- C1 (as amended): in every state reachable from `New()` by a schedule in
which `Unlock` is only issued by the write holder, `RUnlock` only by a read
holder, and at most `2^31 - 1` read acquisitions are outstanding at any time,
the state is at least `-1`, it is `-1` exactly when one writer and no reader
holds the lock, and otherwise it is the number of read holders (and there is no
writer). -/
theorem C1_state_encodes_holders (es : List Event) (hR : Respectful New es)
    (hB : ReadersBounded New es) : Encodes (run New es) :=
  encodes_run es New ok_New (Or.inl ⟨rfl, rfl⟩) hR hB

/-- C1, witness: goroutine 0 takes the write lock, goroutine 1 fails to take a
read lock, goroutine 0 releases. -/
theorem C1_state_encodes_holders_witness :
    Respectful New lockThenUnlock ∧ ReadersBounded New lockThenUnlock ∧
    Encodes (run New lockThenUnlock) :=
  have hR : Respectful New lockThenUnlock := by decide
  have hB : ReadersBounded New lockThenUnlock := by decide
  ⟨hR, hB, C1_state_encodes_holders lockThenUnlock hR hB⟩

/-- C1, counterexample to the claim without the bound on readers: `2^31` calls
of `RLock` in a row, none of them released, form a schedule without any unlock,
and leave the state at `-2^31`, below `-1`, with `2^31` read holders. -/
theorem C1_counterexample :
    Respectful New (rlockMany 0 2147483648) ∧
    (run New (rlockMany 0 2147483648)).m.v = -2147483648 ∧
    (run New (rlockMany 0 2147483648)).readers = 2147483648 ∧
    ¬ Encodes (run New (rlockMany 0 2147483648)) := by
  obtain ⟨a1, -, -, a4, -, -, -, a8⟩ :=
    run_rlockMany 2147483648 New 0 rfl (by decide) (by decide) (by decide)
  have hv : (run New (rlockMany 0 2147483648)).m.v = -2147483648 := by
    rw [a1]; decide
  refine ⟨a8, hv, ?_, ?_⟩
  · rw [a4]; rfl
  · intro hE
    have := hE.1
    rw [hv] at this
    omega

theorem step_gates (w : World) (t : Nat) (p : Bool) :
    ((step w t p).m.ch = w.m.ch ∧ (step w t p).closed = w.closed ∧
      (step w t p).nextGate = w.nextGate ∧ ((step w t p).threads t).owned = none) ∨
    (∃ op l, w.threads t = Thread.running op PC.bc_make l ∧
      (step w t p).m.ch = w.m.ch ∧ (step w t p).closed = w.closed ∧
      (step w t p).nextGate = w.nextGate + 1 ∧
      (step w t p).threads t = Thread.running op PC.bc_swap { l with newCh := w.nextGate }) ∨
    (∃ op l, w.threads t = Thread.running op PC.bc_swap l ∧
      (step w t p).m.ch = l.newCh ∧ (step w t p).closed = w.closed ∧
      (step w t p).nextGate = w.nextGate ∧
      (step w t p).threads t = Thread.running op PC.bc_close { l with ch := w.m.ch }) ∨
    (∃ op l, w.threads t = Thread.running op PC.bc_close l ∧ l.ch ∉ w.closed ∧
      (step w t p).m.ch = w.m.ch ∧ (step w t p).closed = l.ch :: w.closed ∧
      (step w t p).nextGate = w.nextGate ∧
      (step w t p).threads t = Thread.returned op none) := by
  by_cases h : ∃ op pc l, w.threads t = Thread.running op pc l
  · obtain ⟨op, pc, l, hth⟩ := h
    rw [step_running w t p op pc l hth]
    cases pc <;>
    simp only [exec, TryLock, RTryLock, Unlock, RUnlock, broadcast, World.goto,
      World.retBool, World.retUnit, World.panic, World.setThread,
      World.CompareAndSwapInt32, World.AddInt32] <;>
    (try split_ifs) <;>
    first
    | (simp_all [Thread.owned]; done)
    | (refine Or.inr (Or.inl ⟨op, l, ?_⟩); simp_all; done)
    | (refine Or.inr (Or.inr (Or.inl ⟨op, l, ?_⟩)); simp_all; done)
    | (refine Or.inr (Or.inr (Or.inr ⟨op, l, ?_⟩)); simp_all)
  · left
    have hn : ∀ op pc l, w.threads t ≠ Thread.running op pc l := by
      intro op pc l hh; exact h ⟨op, pc, l, hh⟩
    rw [step_not_running w t p hn]
    refine ⟨rfl, rfl, rfl, ?_⟩
    cases hth : w.threads t with
    | running op pc l => exact absurd hth (hn op pc l)
    | _ => rfl

theorem gateInv_step (w : World) (t : Nat) (p : Bool) (h : GateInv w) :
    GateInv (step w t p) := by
  have hoth : ∀ s, s ≠ t → (step w t p).threads s = w.threads s :=
    fun s hs => step_threads_other w t s p hs
  rcases step_gates w t p with ⟨e1, e2, e3, e4⟩ | ⟨op, l, hth, e1, e2, e3, e4⟩ |
    ⟨op, l, hth, e1, e2, e3, e4⟩ | ⟨op, l, hth, hcl, e1, e2, e3, e4⟩
  · have hown : ∀ s g, ((step w t p).threads s).owned = some g →
        s ≠ t ∧ (w.threads s).owned = some g := by
      intro s g hs
      by_cases hst : s = t
      · subst hst; rw [e4] at hs; cases hs
      · exact ⟨hst, by rw [← hoth s hst]; exact hs⟩
    constructor
    · rw [e1, e3]; exact h.cur_lt
    · rw [e1, e2]; exact h.cur_open
    · rw [e2, e3]; exact h.closed_lt
    · rw [e2]; exact h.closed_nodup
    · intro s g hs; rw [e3]; exact h.own_lt s g (hown s g hs).2
    · intro s g hs; rw [e2]; exact h.own_open s g (hown s g hs).2
    · intro s g hs; rw [e1]; exact h.own_cur s g (hown s g hs).2
    · intro s s' g hs hs'; exact h.own_inj s s' g (hown s g hs).2 (hown s' g hs').2
  · have hown : ∀ s g, ((step w t p).threads s).owned = some g →
        (s = t ∧ g = w.nextGate) ∨ (s ≠ t ∧ (w.threads s).owned = some g) := by
      intro s g hs
      by_cases hst : s = t
      · subst hst; rw [e4] at hs; simp [Thread.owned] at hs; exact Or.inl ⟨rfl, hs.symm⟩
      · exact Or.inr ⟨hst, by rw [← hoth s hst]; exact hs⟩
    constructor
    · rw [e1, e3]; exact Nat.lt_succ_of_lt h.cur_lt
    · rw [e1, e2]; exact h.cur_open
    · rw [e2, e3]; intro g hg; exact Nat.lt_succ_of_lt (h.closed_lt g hg)
    · rw [e2]; exact h.closed_nodup
    · intro s g hs; rw [e3]
      rcases hown s g hs with ⟨-, hg⟩ | ⟨-, hg⟩
      · rw [hg]; exact Nat.lt_succ_self _
      · exact Nat.lt_succ_of_lt (h.own_lt s g hg)
    · intro s g hs; rw [e2]
      rcases hown s g hs with ⟨-, hg⟩ | ⟨-, hg⟩
      · intro hmem; rw [hg] at hmem
        exact absurd (h.closed_lt _ hmem) (Nat.lt_irrefl _)
      · exact h.own_open s g hg
    · intro s g hs; rw [e1]
      rcases hown s g hs with ⟨-, hg⟩ | ⟨-, hg⟩
      · rw [hg]; exact Nat.ne_of_gt h.cur_lt
      · exact h.own_cur s g hg
    · intro s s' g hs hs'
      rcases hown s g hs with ⟨h1, hg⟩ | ⟨h1, hg⟩ <;>
        rcases hown s' g hs' with ⟨h2, hg'⟩ | ⟨h2, hg'⟩
      · rw [h1, h2]
      · have := h.own_lt s' g hg'; rw [hg] at this
        exact absurd this (Nat.lt_irrefl _)
      · have := h.own_lt s g hg; rw [hg'] at this
        exact absurd this (Nat.lt_irrefl _)
      · exact h.own_inj s s' g hg hg'
  · have ht0 : (w.threads t).owned = some l.newCh := by rw [hth]; rfl
    have hown : ∀ s g, ((step w t p).threads s).owned = some g →
        (s = t ∧ g = w.m.ch) ∨ (s ≠ t ∧ (w.threads s).owned = some g) := by
      intro s g hs
      by_cases hst : s = t
      · subst hst; rw [e4] at hs; simp [Thread.owned] at hs; exact Or.inl ⟨rfl, hs.symm⟩
      · exact Or.inr ⟨hst, by rw [← hoth s hst]; exact hs⟩
    constructor
    · rw [e1, e3]; exact h.own_lt t _ ht0
    · rw [e1, e2]; exact h.own_open t _ ht0
    · rw [e2, e3]; exact h.closed_lt
    · rw [e2]; exact h.closed_nodup
    · intro s g hs; rw [e3]
      rcases hown s g hs with ⟨-, hg⟩ | ⟨-, hg⟩
      · rw [hg]; exact h.cur_lt
      · exact h.own_lt s g hg
    · intro s g hs; rw [e2]
      rcases hown s g hs with ⟨-, hg⟩ | ⟨-, hg⟩
      · rw [hg]; exact h.cur_open
      · exact h.own_open s g hg
    · intro s g hs; rw [e1]
      rcases hown s g hs with ⟨-, hg⟩ | ⟨hst, hg⟩
      · rw [hg]; exact fun hh => h.own_cur t _ ht0 hh.symm
      · intro hh; rw [hh] at hg; exact hst (h.own_inj s t _ hg ht0)
    · intro s s' g hs hs'
      rcases hown s g hs with ⟨h1, hg⟩ | ⟨h1, hg⟩ <;>
        rcases hown s' g hs' with ⟨h2, hg'⟩ | ⟨h2, hg'⟩
      · rw [h1, h2]
      · exact absurd hg (h.own_cur s' g hg')
      · exact absurd hg' (h.own_cur s g hg)
      · exact h.own_inj s s' g hg hg'
  · have ht0 : (w.threads t).owned = some l.ch := by rw [hth]; rfl
    have hown : ∀ s g, ((step w t p).threads s).owned = some g →
        s ≠ t ∧ (w.threads s).owned = some g := by
      intro s g hs
      by_cases hst : s = t
      · subst hst; rw [e4] at hs; cases hs
      · exact ⟨hst, by rw [← hoth s hst]; exact hs⟩
    constructor
    · rw [e1, e3]; exact h.cur_lt
    · rw [e1, e2]
      intro hmem
      rcases List.mem_cons.mp hmem with hh | hh
      · exact h.own_cur t _ ht0 hh.symm
      · exact h.cur_open hh
    · rw [e2, e3]; intro g hg
      rcases List.mem_cons.mp hg with hh | hh
      · rw [hh]; exact h.own_lt t _ ht0
      · exact h.closed_lt g hh
    · rw [e2]; exact List.nodup_cons.mpr ⟨hcl, h.closed_nodup⟩
    · intro s g hs; rw [e3]; exact h.own_lt s g (hown s g hs).2
    · intro s g hs; rw [e2]
      obtain ⟨hst, hg⟩ := hown s g hs
      intro hmem
      rcases List.mem_cons.mp hmem with hh | hh
      · rw [hh] at hg; exact hst (h.own_inj s t _ hg ht0)
      · exact h.own_open s g hg hh
    · intro s g hs; rw [e1]; exact h.own_cur s g (hown s g hs).2
    · intro s s' g hs hs'; exact h.own_inj s s' g (hown s g hs).2 (hown s' g hs').2

theorem gateInv_call (w : World) (t : Nat) (op : Op) (h : GateInv w) :
    GateInv (call w t op) := by
  unfold call
  split_ifs with hc
  · have hown : ∀ s g, ((w.goto t op (entry op).1 (entry op).2).threads s).owned = some g →
        (w.threads s).owned = some g := by
      intro s g hs
      simp only [World.goto, World.setThread, Function.update_apply] at hs
      split_ifs at hs with hst
      · cases op <;> simp [entry, Thread.owned] at hs
      · exact hs
    constructor
    · exact h.cur_lt
    · exact h.cur_open
    · exact h.closed_lt
    · exact h.closed_nodup
    · intro s g hs; exact h.own_lt s g (hown s g hs)
    · intro s g hs; exact h.own_open s g (hown s g hs)
    · intro s g hs; exact h.own_cur s g (hown s g hs)
    · intro s s' g hs hs'; exact h.own_inj s s' g (hown s g hs) (hown s' g hs')
  · exact h

theorem gateInv_apply (w : World) (e : Event) (h : GateInv w) : GateInv (apply w e) := by
  cases e with
  | call t op => exact gateInv_call w t op h
  | step t p => exact gateInv_step w t p h
  | tick d => exact ⟨h.cur_lt, h.cur_open, h.closed_lt, h.closed_nodup, h.own_lt, h.own_open,
      h.own_cur, h.own_inj⟩

theorem gateInv_run (es : List Event) (w : World) (h : GateInv w) : GateInv (run w es) := by
  induction es generalizing w with
  | nil => exact h
  | cons e es ih => exact ih (apply w e) (gateInv_apply w e h)

theorem gateInv_New : GateInv New := by
  constructor <;> simp [New, Thread.owned]

/-- In a reachable world the state is an `int32`. -/
theorem range_apply (w : World) (e : Event)
    (h : -2147483648 ≤ w.m.v ∧ w.m.v ≤ 2147483647) :
    -2147483648 ≤ (apply w e).m.v ∧ (apply w e).m.v ≤ 2147483647 := by
  cases e with
  | call t op => rw [show (apply w (Event.call t op)).m = w.m from (call_shared w t op).1]; exact h
  | tick d => exact h
  | step t p =>
    simp only [apply]
    rcases step_cell w t p with ⟨h1, -, -⟩ | ⟨op, l, -, -, h1, -, -⟩ |
      ⟨op, l, -, -, h1, -, -⟩ | ⟨op, l, -, -, h1, -, -⟩ | ⟨op, l, -, h1, -, -⟩ <;>
    rw [h1] <;> (try unfold wrap32) <;> omega

theorem range_run (es : List Event) (w : World)
    (h : -2147483648 ≤ w.m.v ∧ w.m.v ≤ 2147483647) :
    -2147483648 ≤ (run w es).m.v ∧ (run w es).m.v ≤ 2147483647 := by
  induction es generalizing w with
  | nil => exact h
  | cons e es ih => exact ih (apply w e) (range_apply w e h)

theorem reachable_range (w : World) (hw : Reachable w) :
    -2147483648 ≤ w.m.v ∧ w.m.v ≤ 2147483647 := by
  obtain ⟨es, rfl⟩ := hw
  exact range_run es New (by decide)

theorem reachable_gateInv (w : World) (hw : Reachable w) : GateInv w := by
  obtain ⟨es, rfl⟩ := hw
  exact gateInv_run es New gateInv_New

theorem reachable_ok (w : World) (hw : Reachable w) : ∀ t, (w.threads t).ok := by
  obtain ⟨es, rfl⟩ := hw
  exact ok_run es New ok_New

theorem reachable_run (w : World) (hw : Reachable w) (es : List Event) :
    Reachable (run w es) := by
  obtain ⟨es0, rfl⟩ := hw
  exact ⟨es0 ++ es, run_append New es0 es⟩

theorem run_unlockOnce_held (w : World) (t : Nat) (hc : (w.threads t).callable = true)
    (hv : w.m.v = -1) (hch : w.m.ch ∉ w.closed) :
    run w (unlockOnce t) =
      { w with m := { v := 0, ch := w.nextGate }, closed := w.m.ch :: w.closed,
               nextGate := w.nextGate + 1, writers := w.writers - 1,
               threads := Function.update w.threads t (Thread.returned Op.Unlock none) } := by
  simp [unlockOnce, steps, run, apply, call, hc, step, exec, Unlock, broadcast, entry,
    World.goto, World.setThread, World.retUnit, World.panic, World.CompareAndSwapInt32, hv,
    hch]

theorem run_unlockOnce_misuse (w : World) (t : Nat) (hc : (w.threads t).callable = true)
    (hv : w.m.v ≠ -1) :
    run w (unlockOnce t) =
      { w with threads :=
          Function.update w.threads t (Thread.panicked Op.Unlock "Unlock() failed") } := by
  simp [unlockOnce, steps, run, apply, call, hc, step, exec, Unlock, broadcast, entry,
    World.goto, World.setThread, World.retUnit, World.panic, World.CompareAndSwapInt32, hv]

theorem run_lockOnce (w : World) (t : Nat) (hc : (w.threads t).callable = true)
    (hv : w.m.v = 0) :
    run w (lockOnce t) =
      { w with m := { w.m with v := -1 }, writers := w.writers + 1,
               threads := Function.update w.threads t (Thread.returned Op.Lock none) } := by
  simp [lockOnce, steps, run, apply, call, hc, step, exec, TryLock, entry,
    World.goto, World.setThread, World.retBool, World.CompareAndSwapInt32, hv]

theorem run_runlockOnce_neg (w : World) (t : Nat) (hc : (w.threads t).callable = true)
    (hv : wrap32 (w.m.v + -1) < 0) :
    run w (runlockOnce t) =
      { w with m := { w.m with v := wrap32 (w.m.v + -1) }, readers := w.readers - 1,
               threads :=
                 Function.update w.threads t (Thread.panicked Op.RUnlock "RUnlock() failed") } := by
  simp [runlockOnce, steps, run, apply, call, hc, step, exec, RUnlock, broadcast, entry,
    World.goto, World.setThread, World.retUnit, World.panic, World.AddInt32, hv]

theorem run_runlockOnce_pos (w : World) (t : Nat) (hc : (w.threads t).callable = true)
    (hv : 0 < wrap32 (w.m.v + -1)) :
    run w (runlockOnce t) =
      { w with m := { w.m with v := wrap32 (w.m.v + -1) }, readers := w.readers - 1,
               threads := Function.update w.threads t (Thread.returned Op.RUnlock none) } := by
  have h1 : ¬ wrap32 (w.m.v + -1) < 0 := by omega
  have h2 : ¬ wrap32 (w.m.v + -1) = 0 := by omega
  simp [runlockOnce, steps, run, apply, call, hc, step, exec, RUnlock, broadcast, entry,
    World.goto, World.setThread, World.retUnit, World.panic, World.AddInt32, h1, h2]

theorem run_runlockOnce_zero (w : World) (t : Nat) (hc : (w.threads t).callable = true)
    (hv : wrap32 (w.m.v + -1) = 0) (hch : w.m.ch ∉ w.closed) :
    run w (runlockOnce t) =
      { w with m := { v := 0, ch := w.nextGate }, closed := w.m.ch :: w.closed,
               nextGate := w.nextGate + 1, readers := w.readers - 1,
               threads := Function.update w.threads t (Thread.returned Op.RUnlock none) } := by
  simp [runlockOnce, steps, run, apply, call, hc, step, exec, RUnlock, broadcast, entry,
    World.goto, World.setThread, World.retUnit, World.panic, World.AddInt32, hv, hch]

/-- C2: in every reachable world, a call of `Unlock()` panics exactly when the
state is not `-1`; the panic value is "Unlock() failed" and the state, the
current channel and the closed channels are as before; when the state is `-1`
the call returns normally and the state is `0`.  In particular, after one
`Lock()` on an unlocked lock, of two `Unlock()` calls in a row the first
returns and the second panics. -/
theorem C2_unlock_panics_iff_not_write_locked (w : World) (t : Nat) (hw : Reachable w)
    (hc : (w.threads t).callable = true) :
    (w.m.v ≠ -1 →
      (run w (unlockOnce t)).threads t = Thread.panicked Op.Unlock "Unlock() failed" ∧
      (run w (unlockOnce t)).m = w.m ∧ (run w (unlockOnce t)).closed = w.closed) ∧
    (w.m.v = -1 →
      (run w (unlockOnce t)).threads t = Thread.returned Op.Unlock none ∧
      (run w (unlockOnce t)).m.v = 0) ∧
    ((∃ msg, (run w (unlockOnce t)).threads t = Thread.panicked Op.Unlock msg) ↔
      w.m.v ≠ -1) ∧
    (w.m.v = 0 →
      (run w (lockOnce t ++ unlockOnce t)).threads t = Thread.returned Op.Unlock none ∧
      (run w (lockOnce t ++ unlockOnce t ++ unlockOnce t)).threads t =
        Thread.panicked Op.Unlock "Unlock() failed") := by
  have hg := reachable_gateInv w hw
  have hmis : w.m.v ≠ -1 →
      (run w (unlockOnce t)).threads t = Thread.panicked Op.Unlock "Unlock() failed" ∧
      (run w (unlockOnce t)).m = w.m ∧ (run w (unlockOnce t)).closed = w.closed := by
    intro hv
    rw [run_unlockOnce_misuse w t hc hv]
    simp
  have hheld : w.m.v = -1 →
      (run w (unlockOnce t)).threads t = Thread.returned Op.Unlock none ∧
      (run w (unlockOnce t)).m.v = 0 := by
    intro hv
    rw [run_unlockOnce_held w t hc hv hg.cur_open]
    simp
  refine ⟨hmis, hheld, ⟨?_, ?_⟩, ?_⟩
  · rintro ⟨msg, hmsg⟩ hv
    rw [(hheld hv).1] at hmsg
    cases hmsg
  · intro hv
    exact ⟨_, (hmis hv).1⟩
  · intro hv
    have h1 := run_lockOnce w t hc hv
    have hc1 : ((run w (lockOnce t)).threads t).callable = true := by
      rw [h1]; simp [Thread.callable]
    have hv1 : (run w (lockOnce t)).m.v = -1 := by rw [h1]
    have hch1 : (run w (lockOnce t)).m.ch ∉ (run w (lockOnce t)).closed := by
      rw [h1]; exact hg.cur_open
    have h2 := run_unlockOnce_held (run w (lockOnce t)) t hc1 hv1 hch1
    rw [← run_append] at h2
    have hc2 : ((run w (lockOnce t ++ unlockOnce t)).threads t).callable = true := by
      rw [h2]; simp [Thread.callable]
    have hv2 : (run w (lockOnce t ++ unlockOnce t)).m.v ≠ -1 := by rw [h2]; simp
    have h3 := run_unlockOnce_misuse (run w (lockOnce t ++ unlockOnce t)) t hc2 hv2
    rw [← run_append] at h3
    refine ⟨by rw [h2]; simp, ?_⟩
    rw [h3]
    simp

/-- C2, witness: the lock fresh from `New()` and goroutine 0. -/
theorem C2_unlock_panics_iff_not_write_locked_witness :
    Reachable New ∧ (New.threads 0).callable = true ∧
    (run New (lockOnce 0 ++ unlockOnce 0)).threads 0 = Thread.returned Op.Unlock none ∧
    (run New (lockOnce 0 ++ unlockOnce 0 ++ unlockOnce 0)).threads 0 =
      Thread.panicked Op.Unlock "Unlock() failed" :=
  ⟨⟨[], rfl⟩, rfl,
    (C2_unlock_panics_iff_not_write_locked New 0 ⟨[], rfl⟩ rfl).2.2.2 rfl⟩

/-- C3 (as amended): in every reachable world whose state is not `-2^31`, a
call of `RUnlock()` panics exactly when the state is at most `0`, and the panic
value is "RUnlock() failed"; with state `v >= 1` it returns normally and leaves
`v - 1`.  In particular `RUnlock()` on a lock that was just write-locked by
`Lock()` panics with that message. -/
theorem C3_runlock_panics_iff_not_read_locked (w : World) (t : Nat) (hw : Reachable w)
    (hc : (w.threads t).callable = true) (hmin : w.m.v ≠ -2147483648) :
    (w.m.v ≤ 0 →
      (run w (runlockOnce t)).threads t = Thread.panicked Op.RUnlock "RUnlock() failed") ∧
    (1 ≤ w.m.v →
      (run w (runlockOnce t)).threads t = Thread.returned Op.RUnlock none ∧
      (run w (runlockOnce t)).m.v = w.m.v - 1) ∧
    ((∃ msg, (run w (runlockOnce t)).threads t = Thread.panicked Op.RUnlock msg) ↔
      w.m.v ≤ 0) ∧
    (w.m.v = 0 →
      (run w (lockOnce t)).m.v = -1 ∧
      (run w (lockOnce t ++ runlockOnce t)).threads t =
        Thread.panicked Op.RUnlock "RUnlock() failed") := by
  have hg := reachable_gateInv w hw
  have hr := reachable_range w hw
  have hneg : w.m.v ≤ 0 →
      (run w (runlockOnce t)).threads t =
        Thread.panicked Op.RUnlock "RUnlock() failed" := by
    intro hv
    rw [run_runlockOnce_neg w t hc (by unfold wrap32; omega)]
    simp
  have hpos : 1 ≤ w.m.v →
      (run w (runlockOnce t)).threads t = Thread.returned Op.RUnlock none ∧
      (run w (runlockOnce t)).m.v = w.m.v - 1 := by
    intro hv
    have hwr : wrap32 (w.m.v + -1) = w.m.v - 1 := by unfold wrap32; omega
    rcases (by omega : 1 < w.m.v ∨ w.m.v = 1) with h1 | h1
    · rw [run_runlockOnce_pos w t hc (by rw [hwr]; omega)]
      simp [hwr]
    · rw [run_runlockOnce_zero w t hc (by rw [hwr]; omega) hg.cur_open]
      simp [h1]
  refine ⟨hneg, hpos, ⟨?_, ?_⟩, ?_⟩
  · rintro ⟨msg, hmsg⟩
    by_contra hv
    rw [(hpos (by omega)).1] at hmsg
    cases hmsg
  · intro hv
    exact ⟨_, hneg hv⟩
  · intro hv
    have h1 := run_lockOnce w t hc hv
    have hc1 : ((run w (lockOnce t)).threads t).callable = true := by
      rw [h1]; simp [Thread.callable]
    have hv1 : (run w (lockOnce t)).m.v = -1 := by rw [h1]
    refine ⟨hv1, ?_⟩
    rw [run_append, run_runlockOnce_neg _ t hc1 (by rw [hv1]; decide)]
    simp

/-- C3, witness: the lock fresh from `New()` and goroutine 0. -/
theorem C3_runlock_panics_iff_not_read_locked_witness :
    Reachable New ∧ (New.threads 0).callable = true ∧ New.m.v ≠ -2147483648 ∧
    (run New (runlockOnce 0)).threads 0 = Thread.panicked Op.RUnlock "RUnlock() failed" :=
  ⟨⟨[], rfl⟩, rfl, by decide,
    (C3_runlock_panics_iff_not_read_locked New 0 ⟨[], rfl⟩ rfl (by decide)).1 (by decide)⟩

/-- C3, counterexample to the claim for every state: after `2^31` calls of
`RLock()` the state is `-2^31`, which is at most `0`, and `RUnlock()` returns
without panic, leaving `2^31 - 1`. -/
theorem C3_counterexample :
    (run New (rlockMany 0 2147483648)).m.v = -2147483648 ∧
    (run New (rlockMany 0 2147483648 ++ runlockOnce 0)).threads 0 =
      Thread.returned Op.RUnlock none ∧
    (run New (rlockMany 0 2147483648 ++ runlockOnce 0)).m.v = 2147483647 := by
  obtain ⟨a1, -, -, -, -, a6, -, -⟩ :=
    run_rlockMany 2147483648 New 0 rfl (by decide) (by decide) (by decide)
  have hv : (run New (rlockMany 0 2147483648)).m.v = -2147483648 := by
    rw [a1]; decide
  have hp : 0 < wrap32 ((run New (rlockMany 0 2147483648)).m.v + -1) := by
    rw [hv]; decide
  refine ⟨hv, ?_, ?_⟩
  · rw [run_append, run_runlockOnce_pos _ 0 a6 hp]
    simp
  · rw [run_append, run_runlockOnce_pos _ 0 a6 hp]
    simp only [hv]
    decide

theorem waiting_step (w0 w : World) (t : Nat) (op : Op) (timeout : Int) (k : Nat) (p : Bool)
    (hop : op = Op.TryLock timeout ∨ op = Op.RTryLock timeout)
    (ht : 0 ≤ timeout) (hch : w0.m.ch ∉ w0.closed)
    (h : Waiting w0 t op timeout (k + 1) w) : Waiting w0 t op timeout k (step w t p) := by
  obtain ⟨hm, hcl, h3⟩ := h
  rw [← hm, ← hcl] at hch
  cases hth : w.threads t with
  | idle => rw [hth] at h3; exact h3.elim
  | panicked op1 msg => rw [hth] at h3; exact h3.elim
  | returned op1 r =>
    rw [step_not_running w t p (by rw [hth]; intro _ _ _ hh; cases hh)]
    rw [hth] at h3; exact ⟨hm, hcl, by rw [hth]; exact h3⟩
  | running op1 pc l =>
    rw [hth] at h3
    obtain ⟨rfl, hto, hrk, hpe⟩ := h3
    rw [step_running w t p op1 pc l hth]
    have hto0 : ¬ l.timeout < 0 := by omega
    refine ⟨?_, ?_, ?_⟩
    · rw [← hm]
      cases pc <;>
      simp only [exec, TryLock, RTryLock, World.goto, World.retBool, World.setThread,
        World.CompareAndSwapInt32, Pending] at hpe ⊢ <;>
      (try split_ifs) <;> first | rfl | omega
    · rw [← hcl]
      cases pc <;>
      simp only [exec, TryLock, RTryLock, World.goto, World.retBool, World.setThread,
        World.CompareAndSwapInt32, Pending] at hpe ⊢ <;>
      (try split_ifs) <;> rfl
    · rcases hop with rfl | rfl <;>
      cases pc <;> simp only [Pending] at hpe <;>
      simp only [exec, TryLock, RTryLock, World.goto, World.retBool, World.setThread,
        World.CompareAndSwapInt32, hto0, if_false] <;>
      (try split_ifs) <;>
      (try simp only [Function.update_same, hth, Pending, PC.rank, true_and] at hrk ⊢) <;>
      first
      | contradiction
      | omega
      | (have h9 : l.ch ∈ w.closed := by assumption
         rw [hpe.2.2] at h9
         exact absurd h9 hch)
      | trivial
      | (obtain ⟨h1, h2, h3⟩ := hpe; exact ⟨hto, by omega, h1, by omega, h3⟩)
      | (obtain ⟨h1, h2⟩ := hpe; exact ⟨hto, by omega, h1, by omega, trivial⟩)

theorem waiting_mono (w0 w : World) (t : Nat) (op : Op) (timeout : Int) (k k1 : Nat)
    (hk : k ≤ k1) (h : Waiting w0 t op timeout k w) : Waiting w0 t op timeout k1 w := by
  obtain ⟨hm, hcl, h3⟩ := h
  refine ⟨hm, hcl, ?_⟩
  cases hth : w.threads t with
  | idle => rw [hth] at h3; exact h3.elim
  | panicked op1 msg => rw [hth] at h3; exact h3.elim
  | returned op1 r => rw [hth] at h3; exact h3
  | running op1 pc l =>
    rw [hth] at h3
    exact ⟨h3.1, h3.2.1, by have := h3.2.2.1; omega, h3.2.2.2⟩

theorem waiting_tick (w0 w : World) (t : Nat) (op : Op) (timeout : Int) (k : Nat) (d : Nat)
    (h : Waiting w0 t op timeout k w) :
    Waiting w0 t op timeout k (apply w (Event.tick d)) := by
  obtain ⟨hm, hcl, h3⟩ := h
  refine ⟨hm, hcl, ?_⟩
  simp only [apply]
  cases hth : w.threads t with
  | idle => rw [hth] at h3; exact h3.elim
  | panicked op1 msg => rw [hth] at h3; exact h3.elim
  | returned op1 r => rw [hth] at h3; exact h3
  | running op1 pc l =>
    rw [hth] at h3
    obtain ⟨h1, h2, h4, h5⟩ := h3
    refine ⟨h1, h2, h4, ?_⟩
    cases pc <;> simp only [Pending] at h5 ⊢ <;>
    first
    | exact h5
    | (obtain ⟨a, b, c⟩ := h5; exact ⟨a, by omega, c⟩)
    | (obtain ⟨a, b⟩ := h5; exact ⟨a, by omega⟩)

theorem waiting_solo (es : List Event) (w0 w : World) (t : Nat) (op : Op) (timeout : Int)
    (hop : op = Op.TryLock timeout ∨ op = Op.RTryLock timeout)
    (ht : 0 ≤ timeout) (hch : w0.m.ch ∉ w0.closed) (hs : Solo t es)
    (h : Waiting w0 t op timeout 5 w) : Waiting w0 t op timeout 5 (run w es) := by
  induction es generalizing w with
  | nil => exact h
  | cons e es ih =>
    cases e with
    | call s o => exact hs.elim
    | tick d => exact ih (apply w (Event.tick d)) hs (waiting_tick w0 w t op timeout 5 d h)
    | step s p =>
      obtain ⟨rfl, hs1⟩ := hs
      exact ih (apply w (Event.step s p)) hs1
        (waiting_mono w0 _ s op timeout 4 5 (by omega)
          (waiting_step w0 w s op timeout 4 p hop ht hch
            (waiting_mono w0 w s op timeout 5 (4 + 1) (by omega) h)))

theorem waiting_steps (n : Nat) (w0 w : World) (t : Nat) (op : Op) (timeout : Int) (k : Nat)
    (hop : op = Op.TryLock timeout ∨ op = Op.RTryLock timeout)
    (ht : 0 ≤ timeout) (hch : w0.m.ch ∉ w0.closed)
    (h : Waiting w0 t op timeout (k + n) w) :
    Waiting w0 t op timeout k (run w (steps t n)) := by
  induction n generalizing w with
  | zero => exact h
  | succ n ih =>
    have h1 := waiting_step w0 w t op timeout (k + n) false hop ht hch h
    exact ih (step w t false) h1

theorem waiting_finish (w0 w : World) (t : Nat) (op : Op) (timeout : Int)
    (hop : op = Op.TryLock timeout ∨ op = Op.RTryLock timeout)
    (ht : 0 ≤ timeout) (hch : w0.m.ch ∉ w0.closed)
    (h : Waiting w0 t op timeout 0 w) :
    (run w [Event.tick timeout.toNat, Event.step t false]).threads t =
      Thread.returned op (some false) := by
  obtain ⟨hm, hcl, h3⟩ := h
  rw [← hm, ← hcl] at hch
  cases hth : w.threads t with
  | idle => rw [hth] at h3; exact h3.elim
  | panicked op1 msg => rw [hth] at h3; exact h3.elim
  | returned op1 r =>
    rw [hth] at h3
    simp [run, apply, step, hth, h3.1, h3.2]
  | running op1 pc l =>
    rw [hth] at h3
    obtain ⟨rfl, hto, hrk, hpe⟩ := h3
    have hn : (timeout.toNat : Int) = timeout := Int.toNat_of_nonneg ht
    rcases hop with rfl | rfl <;>
    cases pc <;> simp only [PC.rank] at hrk <;> (try omega) <;>
    simp only [Pending] at hpe <;>
    (obtain ⟨h1, h2, h3⟩ := hpe
     simp [run, apply, step, hth, exec, TryLock, RTryLock, World.retBool, World.setThread,
       h3, hch, h2, sup_of_le_left ht])

theorem waiting_call (w : World) (t : Nat) (op : Op) (timeout : Int)
    (hop : (op = Op.TryLock timeout ∧ w.m.v ≠ 0) ∨ (op = Op.RTryLock timeout ∧ w.m.v < 0))
    (hc : (w.threads t).callable = true) :
    Waiting w t op timeout 5 (call w t op) := by
  unfold call
  rw [if_pos hc]
  refine ⟨rfl, rfl, ?_⟩
  rcases hop with ⟨rfl, hv⟩ | ⟨rfl, hv⟩ <;>
  simp [World.goto, World.setThread, entry, PC.rank, Pending, hv]

theorem run_tryLockZero (w : World) (t : Nat) (hc : (w.threads t).callable = true)
    (hv : w.m.v ≠ 0) :
    run w (tryLockZero t) =
      { w with threads :=
          Function.update w.threads t (Thread.returned (Op.TryLock 0) (some false)) } := by
  simp [tryLockZero, steps, run, apply, call, hc, step, exec, TryLock, entry, World.goto,
    World.setThread, World.retBool, World.CompareAndSwapInt32, hv]

theorem run_times_tryLockZero (k : Nat) (w : World) (t : Nat)
    (hc : (w.threads t).callable = true) (hv : w.m.v ≠ 0) :
    (run w (times k (tryLockZero t))).m = w.m ∧
    (run w (times k (tryLockZero t))).closed = w.closed ∧
    ((run w (times k (tryLockZero t))).threads t).callable = true ∧
    (1 ≤ k → (run w (times k (tryLockZero t))).threads t =
      Thread.returned (Op.TryLock 0) (some false)) := by
  induction k generalizing w with
  | zero => exact ⟨rfl, rfl, hc, by simp⟩
  | succ k ih =>
    have h1 := run_tryLockZero w t hc hv
    have hc1 : ((run w (tryLockZero t)).threads t).callable = true := by
      rw [h1]; simp [Thread.callable]
    have hv1 : (run w (tryLockZero t)).m.v ≠ 0 := by rw [h1]; exact hv
    obtain ⟨a1, a2, a3, a4⟩ := ih (run w (tryLockZero t)) hc1 hv1
    simp only [times, run_append]
    refine ⟨by rw [a1, h1], by rw [a2, h1], a3, fun _ => ?_⟩
    rcases Nat.eq_zero_or_pos k with h0 | hpos
    · subst h0
      simp only [times, run_nil, h1, Function.update_same]
    · exact a4 hpos

/-- C4: a call of `TryLock(timeout)` with `timeout >= 0` on a lock whose state is
not `0` and whose channel is not closed, during which only the caller runs and
time passes, never changes the state, the channel or the closed channels and
never returns true; from any moment of the call, five more steps of the caller,
the passing of `timeout` and one more step make it return false.  With
`timeout == 0` the call returns false after its fourth step whatever time
passes between the steps: deadline, the one compare-and-swap, the channel
snapshot and the deadline test.  Repeating `TryLock(0)` any number of times
gives false every time and changes nothing. -/
theorem C4_trylock_fails_while_held (w : World) (t : Nat) (timeout : Int) (es : List Event)
    (hc : (w.threads t).callable = true) (ht : 0 ≤ timeout) (hv : w.m.v ≠ 0)
    (hch : w.m.ch ∉ w.closed) (hs : Solo t es) :
    (run w (Event.call t (Op.TryLock timeout) :: es)).m = w.m ∧
    (run w (Event.call t (Op.TryLock timeout) :: es)).closed = w.closed ∧
    ((run w (Event.call t (Op.TryLock timeout) :: es)).threads t =
        Thread.returned (Op.TryLock timeout) (some false) ∨
      ∃ pc l, (run w (Event.call t (Op.TryLock timeout) :: es)).threads t =
        Thread.running (Op.TryLock timeout) pc l) ∧
    (run w (Event.call t (Op.TryLock timeout) :: es ++ steps t 5 ++
        [Event.tick timeout.toNat, Event.step t false])).threads t =
      Thread.returned (Op.TryLock timeout) (some false) ∧
    (timeout = 0 → ∀ d1 d2 d3 d4 : Nat,
      (run w (Event.call t (Op.TryLock 0) :: paced t [d1])).threads t =
        Thread.running (Op.TryLock 0) PC.tl_cas { timeout := 0, deadline := w.now + d1 } ∧
      (run w (Event.call t (Op.TryLock 0) :: paced t [d1, d2])).threads t =
        Thread.running (Op.TryLock 0) PC.tl_getch { timeout := 0, deadline := w.now + d1 } ∧
      (run w (Event.call t (Op.TryLock 0) :: paced t [d1, d2, d3])).threads t =
        Thread.running (Op.TryLock 0) PC.tl_until
          { timeout := 0, deadline := w.now + d1, ch := w.m.ch } ∧
      (run w (Event.call t (Op.TryLock 0) :: paced t [d1, d2, d3, d4])).threads t =
        Thread.returned (Op.TryLock 0) (some false)) ∧
    (∀ k, 1 ≤ k →
      (run w (times k (tryLockZero t))).threads t =
        Thread.returned (Op.TryLock 0) (some false) ∧
      (run w (times k (tryLockZero t))).m = w.m ∧
      (run w (times k (tryLockZero t))).closed = w.closed) := by
  have hop : Op.TryLock timeout = Op.TryLock timeout ∨
      Op.TryLock timeout = Op.RTryLock timeout := Or.inl rfl
  have h0 := waiting_call w t (Op.TryLock timeout) timeout (Or.inl ⟨rfl, hv⟩) hc
  have h1 := waiting_solo es w (call w t (Op.TryLock timeout)) t _ timeout hop ht hch hs h0
  have h2 := waiting_steps 5 w _ t _ timeout 0 hop ht hch (by simpa using h1)
  have h3 := waiting_finish w _ t _ timeout hop ht hch h2
  refine ⟨h1.1, h1.2.1, ?_, ?_, ?_, ?_⟩
  · have h4 := h1.2.2
    simp only [run_cons, apply]
    cases hth : (run (call w t (Op.TryLock timeout)) es).threads t with
    | idle => rw [hth] at h4; exact h4.elim
    | panicked op1 msg => rw [hth] at h4; exact h4.elim
    | returned op1 r => rw [hth] at h4; rw [h4.1, h4.2]; exact Or.inl rfl
    | running op1 pc l => rw [hth] at h4; rw [h4.1]; exact Or.inr ⟨pc, l, rfl⟩
  · rw [← h3]
    simp only [run_cons, run_append, apply, List.cons_append, List.append_assoc]
  · rintro rfl d1 d2 d3 d4
    have hd : w.now + (d1 : Int) ≤ w.now + d1 + d2 + d3 + d4 := by omega
    simp [paced, run, apply, call, hc, step, exec, TryLock, entry, World.goto,
      World.setThread, World.retBool, World.CompareAndSwapInt32, hv, hd]
  · intro k hk
    obtain ⟨a1, a2, -, a4⟩ := run_times_tryLockZero k w t hc hv
    exact ⟨a4 hk, a1, a2⟩

/-- C4, witness: goroutine 0 holds the write lock taken from `New()`, goroutine
1 tries. -/
theorem C4_trylock_fails_while_held_witness :
    ((run New (lockOnce 0)).threads 1).callable = true ∧ (0 : Int) ≤ 10 ∧
    (run New (lockOnce 0)).m.v ≠ 0 ∧
    (run New (lockOnce 0)).m.ch ∉ (run New (lockOnce 0)).closed ∧
    Solo 1 [Event.tick 5, Event.step 1 false] ∧
    (run (run New (lockOnce 0)) (times 3 (tryLockZero 1))).threads 1 =
      Thread.returned (Op.TryLock 0) (some false) :=
  have h1 : ((run New (lockOnce 0)).threads 1).callable = true := by decide
  have h2 : (0 : Int) ≤ 10 := by decide
  have h3 : (run New (lockOnce 0)).m.v ≠ 0 := by decide
  have h4 : (run New (lockOnce 0)).m.ch ∉ (run New (lockOnce 0)).closed := by decide
  have h5 : Solo 1 [Event.tick 5, Event.step 1 false] := ⟨rfl, trivial⟩
  ⟨h1, h2, h3, h4, h5,
    ((C4_trylock_fails_while_held (run New (lockOnce 0)) 1 10
      [Event.tick 5, Event.step 1 false] h1 h2 h3 h4 h5).2.2.2.2.2 3 (by decide)).1⟩

theorem run_tryLockZero_free (w : World) (t : Nat) (hc : (w.threads t).callable = true)
    (hv : w.m.v = 0) :
    run w (tryLockZero t) =
      { w with m := { w.m with v := -1 }, writers := w.writers + 1,
               threads :=
                 Function.update w.threads t (Thread.returned (Op.TryLock 0) (some true)) } := by
  simp [tryLockZero, steps, run, apply, call, hc, step, exec, TryLock, entry, World.goto,
    World.setThread, World.retBool, World.CompareAndSwapInt32, hv]

/-- C5: on an unlocked lock, `Lock()` followed by `Unlock()` returns and leaves
the state at `0`; a subsequent `TryLock(0)` returns true and sets the state to
`-1`, which is also what `TryLock(0)` does on the lock fresh from `New()`. -/
theorem C5_lock_unlock_restores (w : World) (t : Nat) (hw : Reachable w)
    (hc : (w.threads t).callable = true) (hv : w.m.v = 0) :
    (run w (lockOnce t)).m.v = -1 ∧
    (run w (lockOnce t ++ unlockOnce t)).threads t = Thread.returned Op.Unlock none ∧
    (run w (lockOnce t ++ unlockOnce t)).m.v = 0 ∧
    (run w (lockOnce t ++ unlockOnce t ++ tryLockZero t)).threads t =
      Thread.returned (Op.TryLock 0) (some true) ∧
    (run w (lockOnce t ++ unlockOnce t ++ tryLockZero t)).m.v = -1 ∧
    (run New (tryLockZero t)).threads t = Thread.returned (Op.TryLock 0) (some true) ∧
    (run New (tryLockZero t)).m.v = -1 := by
  have hg := reachable_gateInv w hw
  have h1 := run_lockOnce w t hc hv
  have hc1 : ((run w (lockOnce t)).threads t).callable = true := by
    rw [h1]; simp [Thread.callable]
  have hv1 : (run w (lockOnce t)).m.v = -1 := by rw [h1]
  have hch1 : (run w (lockOnce t)).m.ch ∉ (run w (lockOnce t)).closed := by
    rw [h1]; exact hg.cur_open
  have h2 := run_unlockOnce_held (run w (lockOnce t)) t hc1 hv1 hch1
  rw [← run_append] at h2
  have hc2 : ((run w (lockOnce t ++ unlockOnce t)).threads t).callable = true := by
    rw [h2]; simp [Thread.callable]
  have hv2 : (run w (lockOnce t ++ unlockOnce t)).m.v = 0 := by rw [h2]
  have h3 := run_tryLockZero_free (run w (lockOnce t ++ unlockOnce t)) t hc2 hv2
  rw [← run_append] at h3
  have h4 := run_tryLockZero_free New t rfl rfl
  refine ⟨hv1, by rw [h2]; simp, hv2, by rw [h3]; simp, by rw [h3], by rw [h4]; simp,
    by rw [h4]⟩

/-- C5, witness: the lock fresh from `New()` and goroutine 0. -/
theorem C5_lock_unlock_restores_witness :
    Reachable New ∧ (New.threads 0).callable = true ∧ New.m.v = 0 ∧
    (run New (lockOnce 0 ++ unlockOnce 0 ++ tryLockZero 0)).threads 0 =
      Thread.returned (Op.TryLock 0) (some true) :=
  ⟨⟨[], rfl⟩, rfl, rfl, (C5_lock_unlock_restores New 0 ⟨[], rfl⟩ rfl rfl).2.2.2.1⟩

theorem run_times_runlockOnce (k : Nat) (w : World) (t : Nat) (hw : Reachable w)
    (hc : (w.threads t).callable = true) (hk : (k : Int) ≤ w.m.v) :
    (run w (times k (runlockOnce t))).m.v = w.m.v - k ∧
    ((run w (times k (runlockOnce t))).threads t).callable = true ∧
    (1 ≤ k → (run w (times k (runlockOnce t))).threads t =
      Thread.returned Op.RUnlock none) := by
  induction k generalizing w with
  | zero => exact ⟨by simp [times, run_nil], hc, by simp⟩
  | succ k ih =>
    have hg := reachable_gateInv w hw
    have hr := reachable_range w hw
    have hwr : wrap32 (w.m.v + -1) = w.m.v - 1 := by
      unfold wrap32; push_cast at hk; omega
    have h1 : (run w (runlockOnce t)).m.v = w.m.v - 1 ∧
        (run w (runlockOnce t)).threads t = Thread.returned Op.RUnlock none := by
      rcases (by push_cast at hk; omega : 1 < w.m.v ∨ w.m.v = 1) with h1 | h1
      · rw [run_runlockOnce_pos w t hc (by rw [hwr]; omega)]
        simp [hwr]
      · rw [run_runlockOnce_zero w t hc (by rw [hwr]; omega) hg.cur_open]
        simp [h1]
    have hc1 : ((run w (runlockOnce t)).threads t).callable = true := by
      rw [h1.2]; rfl
    obtain ⟨a1, a2, a3⟩ := ih (run w (runlockOnce t)) (reachable_run w hw _) hc1
      (by rw [h1.1]; push_cast at hk; omega)
    simp only [times, run_append]
    refine ⟨by rw [a1, h1.1]; push_cast; ring, a2, fun _ => ?_⟩
    rcases Nat.eq_zero_or_pos k with h0 | hpos
    · subst h0
      simp only [times, run_nil, h1.2]
    · exact a3 hpos

/-- C6: for `1 <= n <= 2^31 - 1`, on an unlocked lock, each of `n` calls of
`RLock()` in a row returns after the three steps of its first attempt, and
after `k` of them the state is `k`; then each of `n` calls of `RUnlock()`
returns without panic, after `k` of them the state is `n - k`, so `0` after all
of them; one more `RUnlock()` panics with "RUnlock() failed". -/
theorem C6_readers_count (w : World) (t : Nat) (n : Nat) (hw : Reachable w)
    (hc : (w.threads t).callable = true) (hv : w.m.v = 0) (hn1 : 1 ≤ n)
    (hn2 : n ≤ 2147483647) :
    (∀ k, 1 ≤ k → k ≤ n →
      (run w (rlockMany t k)).threads t = Thread.returned Op.RLock none ∧
      (run w (rlockMany t k)).m.v = k) ∧
    (∀ k, 1 ≤ k → k ≤ n →
      (run w (rlockMany t n ++ times k (runlockOnce t))).threads t =
        Thread.returned Op.RUnlock none ∧
      (run w (rlockMany t n ++ times k (runlockOnce t))).m.v = n - k) ∧
    (run w (rlockMany t n ++ times n (runlockOnce t))).m.v = 0 ∧
    (run w (rlockMany t n ++ times n (runlockOnce t) ++ runlockOnce t)).threads t =
      Thread.panicked Op.RUnlock "RUnlock() failed" := by
  have hlock : ∀ k, k ≤ n →
      (1 ≤ k → (run w (rlockMany t k)).threads t = Thread.returned Op.RLock none) ∧
      (run w (rlockMany t k)).m.v = k ∧
      ((run w (rlockMany t k)).threads t).callable = true := by
    intro k hk
    obtain ⟨a1, -, -, -, -, a6, a7, -⟩ :=
      run_rlockMany k w t hc (by omega) (by omega) (by rw [hv]; omega)
    refine ⟨a7, ?_, a6⟩
    rw [a1, hv]; unfold wrap32; omega
  obtain ⟨-, hvn, hcn⟩ := hlock n (le_refl n)
  have hwn : Reachable (run w (rlockMany t n)) := reachable_run w hw _
  have hun : ∀ k, k ≤ n →
      (run w (rlockMany t n ++ times k (runlockOnce t))).m.v = n - k ∧
      ((run w (rlockMany t n ++ times k (runlockOnce t))).threads t).callable = true ∧
      (1 ≤ k → (run w (rlockMany t n ++ times k (runlockOnce t))).threads t =
        Thread.returned Op.RUnlock none) := by
    intro k hk
    obtain ⟨a1, a2, a3⟩ := run_times_runlockOnce k (run w (rlockMany t n)) t hwn hcn
      (by rw [hvn]; exact_mod_cast hk)
    rw [run_append]
    exact ⟨by rw [a1, hvn], a2, a3⟩
  refine ⟨fun k hk1 hk => ⟨(hlock k hk).1 hk1, (hlock k hk).2.1⟩,
    fun k hk1 hk => ⟨(hun k hk).2.2 hk1, (hun k hk).1⟩, ?_, ?_⟩
  · rw [(hun n (le_refl n)).1]; ring
  · obtain ⟨b1, b2, -⟩ := hun n (le_refl n)
    rw [run_append w (rlockMany t n ++ times n (runlockOnce t)) (runlockOnce t),
      run_runlockOnce_neg _ t b2 (by rw [b1]; simp [wrap32])]
    simp

/-- C6, witness: two readers on the lock fresh from `New()`. -/
theorem C6_readers_count_witness :
    Reachable New ∧ (New.threads 0).callable = true ∧ New.m.v = 0 ∧ 1 ≤ 2 ∧
    2 ≤ 2147483647 ∧
    (run New (rlockMany 0 2 ++ times 2 (runlockOnce 0) ++ runlockOnce 0)).threads 0 =
      Thread.panicked Op.RUnlock "RUnlock() failed" :=
  ⟨⟨[], rfl⟩, rfl, rfl, by decide, by decide,
    (C6_readers_count New 0 2 ⟨[], rfl⟩ rfl rfl (by decide) (by decide)).2.2.2⟩

theorem run_rtryLock_free (w : World) (t : Nat) (timeout : Int)
    (hc : (w.threads t).callable = true) (hv : 0 ≤ w.m.v) :
    run w (rtryLock t timeout 3) =
      { w with m := { w.m with v := wrap32 (w.m.v + 1) }, readers := w.readers + 1,
               threads := Function.update w.threads t
                 (Thread.returned (Op.RTryLock timeout) (some true)) } := by
  simp [rtryLock, steps, run, apply, call, hc, step, exec, RTryLock, entry, World.goto,
    World.setThread, World.retBool, World.CompareAndSwapInt32, hv]

theorem run_rtryLock_held (w : World) (t : Nat) (timeout : Int)
    (hc : (w.threads t).callable = true) (hv : w.m.v < 0) :
    run w (rtryLock t timeout 2) =
      { w with
        threads := Function.update w.threads t
          (Thread.running (Op.RTryLock timeout) PC.rtl_getch
            { timeout := timeout, deadline := w.now + timeout, n := w.m.v }) } := by
  have hv1 : ¬ 0 ≤ w.m.v := by omega
  simp [rtryLock, steps, run, apply, call, hc, step, exec, RTryLock, entry, World.goto,
    World.setThread, World.retBool, World.CompareAndSwapInt32, hv1]

theorem run_rtryLock_held_three (w : World) (t : Nat) (timeout : Int)
    (hc : (w.threads t).callable = true) (hv : w.m.v < 0) :
    ∃ pc l, (run w (rtryLock t timeout 3)).threads t =
      Thread.running (Op.RTryLock timeout) pc l := by
  have hv1 : ¬ 0 ≤ w.m.v := by omega
  by_cases hto : timeout < 0 <;>
  simp [rtryLock, steps, run, apply, call, hc, step, exec, RTryLock, entry, World.goto,
    World.setThread, World.retBool, World.CompareAndSwapInt32, hv1, hto]

theorem rlockMany_threads_other (n : Nat) (w : World) (t s : Nat) (h : s ≠ t) :
    (run w (rlockMany t n)).threads s = w.threads s := by
  induction n generalizing w with
  | zero => rfl
  | succ n ih =>
    simp only [rlockMany, run_append, ih]
    simp only [rlockOnce, run, List.foldl, apply, step_threads_other _ t s _ h]
    unfold call
    split_ifs
    · simp [World.goto, World.setThread, Function.update_noteq h]
    · rfl

/-- C7 (as amended): in every reachable world, a single uncontended attempt of
`RTryLock` on state `n` (deadline, load, compare-and-swap) succeeds exactly when
`n >= 0`; the state then becomes `n+1` reduced to `int32`, which is `n+1` when
`n < 2^31 - 1`.  When `n < 0` the attempt (deadline, load) ends at the channel
snapshot without a compare-and-swap and leaves the lock as it was; and a call
with `timeout >= 0` during which only the caller runs and time passes leaves the
lock and the closed channels unchanged, and has returned false after five more
steps of the caller, the passing of `timeout` and one more step. -/
theorem C7_rtrylock_attempt (w : World) (t : Nat) (timeout : Int) (es : List Event)
    (hw : Reachable w) (hc : (w.threads t).callable = true) (hs : Solo t es) :
    (0 ≤ w.m.v →
      (run w (rtryLock t timeout 3)).threads t =
        Thread.returned (Op.RTryLock timeout) (some true) ∧
      (run w (rtryLock t timeout 3)).m.v = wrap32 (w.m.v + 1) ∧
      (w.m.v < 2147483647 → (run w (rtryLock t timeout 3)).m.v = w.m.v + 1)) ∧
    ((run w (rtryLock t timeout 3)).threads t =
        Thread.returned (Op.RTryLock timeout) (some true) ↔ 0 ≤ w.m.v) ∧
    (w.m.v < 0 →
      (run w (rtryLock t timeout 2)).threads t =
        Thread.running (Op.RTryLock timeout) PC.rtl_getch
          { timeout := timeout, deadline := w.now + timeout, n := w.m.v } ∧
      (run w (rtryLock t timeout 2)).m = w.m) ∧
    (w.m.v < 0 → 0 ≤ timeout →
      (run w (Event.call t (Op.RTryLock timeout) :: es)).m = w.m ∧
      (run w (Event.call t (Op.RTryLock timeout) :: es)).closed = w.closed ∧
      (run w (Event.call t (Op.RTryLock timeout) :: es)).threads t ≠
        Thread.returned (Op.RTryLock timeout) (some true) ∧
      (run w (Event.call t (Op.RTryLock timeout) :: es ++ steps t 5 ++
          [Event.tick timeout.toNat, Event.step t false])).threads t =
        Thread.returned (Op.RTryLock timeout) (some false)) := by
  have hg := reachable_gateInv w hw
  have hr := reachable_range w hw
  have hfree : 0 ≤ w.m.v →
      (run w (rtryLock t timeout 3)).threads t =
        Thread.returned (Op.RTryLock timeout) (some true) ∧
      (run w (rtryLock t timeout 3)).m.v = wrap32 (w.m.v + 1) ∧
      (w.m.v < 2147483647 → (run w (rtryLock t timeout 3)).m.v = w.m.v + 1) := by
    intro hv
    rw [run_rtryLock_free w t timeout hc hv]
    refine ⟨by simp, rfl, fun h => ?_⟩
    simp only [wrap32]
    omega
  refine ⟨hfree, ⟨?_, fun hv => (hfree hv).1⟩, ?_, ?_⟩
  · intro h
    by_contra hv
    obtain ⟨pc, l, hrun⟩ := run_rtryLock_held_three w t timeout hc (by omega)
    rw [hrun] at h
    cases h
  · intro hv
    rw [run_rtryLock_held w t timeout hc hv]
    exact ⟨by simp, rfl⟩
  · intro hv ht
    have hop : Op.RTryLock timeout = Op.TryLock timeout ∨
        Op.RTryLock timeout = Op.RTryLock timeout := Or.inr rfl
    have h0 := waiting_call w t (Op.RTryLock timeout) timeout (Or.inr ⟨rfl, hv⟩) hc
    have h1 := waiting_solo es w (call w t (Op.RTryLock timeout)) t _ timeout hop ht
      hg.cur_open hs h0
    have h2 := waiting_steps 5 w _ t _ timeout 0 hop ht hg.cur_open (by simpa using h1)
    have h3 := waiting_finish w _ t _ timeout hop ht hg.cur_open h2
    refine ⟨h1.1, h1.2.1, ?_, ?_⟩
    · have h4 := h1.2.2
      simp only [run_cons, apply]
      intro hret
      rw [hret] at h4
      cases h4.2
    · rw [← h3]
      simp only [run_cons, run_append, apply, List.cons_append, List.append_assoc]

/-- C7, witness: one reader on the lock fresh from `New()`. -/
theorem C7_rtrylock_attempt_witness :
    Reachable New ∧ (New.threads 0).callable = true ∧ Solo 0 [Event.tick 1] ∧
    (run New (rtryLock 0 7 3)).threads 0 = Thread.returned (Op.RTryLock 7) (some true) ∧
    (run New (rtryLock 0 7 3)).m.v = 1 :=
  have h := (C7_rtrylock_attempt New 0 7 [Event.tick 1] ⟨[], rfl⟩ rfl trivial).1
    (by decide)
  ⟨⟨[], rfl⟩, rfl, trivial, h.1, h.2.2 (by decide)⟩

/-- C7, counterexample to "the state becomes n+1": with `2^31 - 1` readers the
attempt of `RTryLock(0)` succeeds and the state becomes `-2^31`. -/
theorem C7_counterexample :
    (run New (rlockMany 0 2147483647)).m.v = 2147483647 ∧
    (run New (rlockMany 0 2147483647 ++ rtryLock 1 0 3)).threads 1 =
      Thread.returned (Op.RTryLock 0) (some true) ∧
    (run New (rlockMany 0 2147483647 ++ rtryLock 1 0 3)).m.v = -2147483648 ∧
    (run New (rlockMany 0 2147483647 ++ rtryLock 1 0 3)).m.v ≠ 2147483647 + 1 := by
  obtain ⟨a1, -, -, -, -, -, -, -⟩ :=
    run_rlockMany 2147483647 New 0 rfl (by decide) (by decide) (by decide)
  have hv : (run New (rlockMany 0 2147483647)).m.v = 2147483647 := by
    rw [a1]; decide
  have hc : ((run New (rlockMany 0 2147483647)).threads 1).callable = true := by
    rw [rlockMany_threads_other 2147483647 New 0 1 (by decide)]; rfl
  have h1 := run_rtryLock_free (run New (rlockMany 0 2147483647)) 1 0 hc (by rw [hv]; decide)
  rw [← run_append] at h1
  refine ⟨hv, by rw [h1]; simp, ?_, ?_⟩
  · rw [h1]; simp only [hv]; decide
  · rw [h1]; simp only [hv]; decide

/-- A step that makes a running goroutine return is a successful
compare-and-swap of `TryLock` or `RTryLock`, a step of the timed branch, the
decrement of `RUnlock` or the close of `broadcast`. -/
theorem step_returned (w : World) (t : Nat) (p : Bool) (op op1 : Op) (pc : PC) (l : Locals)
    (r : Option Bool) (hth : w.threads t = Thread.running op pc l)
    (hret : (step w t p).threads t = Thread.returned op1 r) :
    (pc = PC.tl_cas ∧ w.m.v = 0 ∧ (step w t p).m.v = -1 ∧
      (step w t p).writers = w.writers + 1) ∨
    (pc = PC.rtl_cas ∧ w.m.v = l.n ∧ (step w t p).m.v = wrap32 (l.n + 1) ∧
      (step w t p).readers = w.readers + 1) ∨
    pc.timed = true ∨ pc = PC.rul_add ∨ pc = PC.bc_close := by
  rw [step_running w t p op pc l hth] at hret ⊢
  cases pc <;>
  simp only [exec, TryLock, RTryLock, Unlock, RUnlock, broadcast, World.goto,
    World.retBool, World.retUnit, World.panic, World.setThread,
    World.CompareAndSwapInt32, World.AddInt32] at hret ⊢ <;>
  (try split_ifs at hret ⊢) <;>
  simp_all [PC.timed]

theorem apply_returned (w : World) (e : Event) (t : Nat) (op op1 : Op) (pc : PC)
    (l : Locals) (r : Option Bool) (hth : w.threads t = Thread.running op pc l)
    (hret : (apply w e).threads t = Thread.returned op1 r) :
    ∃ p, e = Event.step t p := by
  cases e with
  | tick d => simp only [apply] at hret; rw [hth] at hret; cases hret
  | call s o =>
    simp only [apply, call] at hret
    split_ifs at hret with hc
    · simp only [World.goto, World.setThread, Function.update_apply] at hret
      split_ifs at hret with hst
      rw [hth] at hret; cases hret
    · rw [hth] at hret; cases hret
  | step s p =>
    by_cases hst : t = s
    · exact ⟨p, by rw [hst]⟩
    · simp only [apply, step_threads_other w s t p hst] at hret
      rw [hth] at hret; cases hret

/-- C8 (as amended): in every reachable world, a call of `TryLock` or `RTryLock` with a
negative timeout that has returned has returned true, and `Lock` and `RLock`
return only that way: the event by which a goroutine running `TryLock(d)` with
`d < 0`, or `Lock()`, returns is its own step, a compare-and-swap that found the
state `0` and left `-1`, adding one write holder; for `RTryLock(d)` with `d < 0`
and `RLock()` it is its own compare-and-swap that found a state `n >= 0` and
left `n+1` reduced to `int32` (`n+1` when `n < 2^31 - 1`), adding one read
holder. -/
theorem C8_negative_timeout_returns_acquired (w : World) (hw : Reachable w) :
    (∀ t d r, d < 0 → w.threads t = Thread.returned (Op.TryLock d) r → r = some true) ∧
    (∀ t d r, d < 0 → w.threads t = Thread.returned (Op.RTryLock d) r → r = some true) ∧
    (∀ e t op op1 pc l r, w.threads t = Thread.running op pc l →
      (apply w e).threads t = Thread.returned op1 r →
      ((∃ d, d < 0 ∧ op = Op.TryLock d) ∨ op = Op.Lock →
        (∃ p, e = Event.step t p) ∧ w.m.v = 0 ∧ (apply w e).m.v = -1 ∧
        (apply w e).writers = w.writers + 1) ∧
      ((∃ d, d < 0 ∧ op = Op.RTryLock d) ∨ op = Op.RLock →
        (∃ p, e = Event.step t p) ∧ 0 ≤ w.m.v ∧
        (apply w e).m.v = wrap32 (w.m.v + 1) ∧
        (w.m.v < 2147483647 → (apply w e).m.v = w.m.v + 1) ∧
        (apply w e).readers = w.readers + 1)) := by
  have hok := reachable_ok w hw
  refine ⟨?_, ?_, ?_⟩
  · intro t d r hd hth
    have h := hok t
    rw [hth] at h
    exact h hd
  · intro t d r hd hth
    have h := hok t
    rw [hth] at h
    exact h hd
  · intro e t op op1 pc l r hth hret
    obtain ⟨p, rfl⟩ := apply_returned w e t op op1 pc l r hth hret
    have h := hok t
    rw [hth] at h
    obtain ⟨h1, h2, h3⟩ := h
    have hcases := step_returned w t p op op1 pc l r hth hret
    simp only [apply]
    constructor
    · intro hop
      have hpc : pc.inTryLock = true ∧ l.timeout < 0 := by
        rcases hop with ⟨d, hd, rfl⟩ | rfl
        · exact ⟨h1.1, by rw [h1.2]; exact hd⟩
        · exact ⟨h1.1, by rw [h1.2]; decide⟩
      have hnt := h2 hpc.2
      rcases hcases with ⟨-, a, b, c⟩ | ⟨rfl, -⟩ | ht | rfl | rfl
      · exact ⟨⟨p, rfl⟩, a, b, c⟩
      · exact absurd hpc.1 (by decide)
      · rw [hnt] at ht; cases ht
      · exact absurd hpc.1 (by decide)
      · exact absurd hpc.1 (by decide)
    · intro hop
      have hpc : pc.inRTryLock = true ∧ l.timeout < 0 := by
        rcases hop with ⟨d, hd, rfl⟩ | rfl
        · exact ⟨h1.1, by rw [h1.2]; exact hd⟩
        · exact ⟨h1.1, by rw [h1.2]; decide⟩
      have hnt := h2 hpc.2
      rcases hcases with ⟨rfl, -⟩ | ⟨rfl, a, b, c⟩ | ht | rfl | rfl
      · exact absurd hpc.1 (by decide)
      · have hn := h3 rfl
        refine ⟨⟨p, rfl⟩, by rw [a]; exact hn, by rw [b, a], fun hlt => ?_, c⟩
        rw [b, ← a]; unfold wrap32; omega
      · rw [hnt] at ht; cases ht
      · exact absurd hpc.1 (by decide)
      · exact absurd hpc.1 (by decide)

/-- C8, witness: goroutine 0 inside `Lock()` on the lock fresh from `New()`,
about to run its compare-and-swap. -/
theorem C8_negative_timeout_returns_acquired_witness :
    Reachable (run New [Event.call 0 Op.Lock, Event.step 0 false]) ∧
    (run New [Event.call 0 Op.Lock, Event.step 0 false]).m.v = 0 ∧
    (apply (run New [Event.call 0 Op.Lock, Event.step 0 false]) (Event.step 0 false)).m.v
      = -1 :=
  have h := ((C8_negative_timeout_returns_acquired
    (run New [Event.call 0 Op.Lock, Event.step 0 false]) ⟨_, rfl⟩).2.2
    (Event.step 0 false) 0 Op.Lock Op.Lock PC.tl_cas { timeout := -1, deadline := -1 } none
    rfl rfl).1 (Or.inr rfl)
  ⟨⟨_, rfl⟩, h.2.1, h.2.2.1⟩

/-- C9, the code at the failing schedule: in `lostWakeup` the holder's
`Unlock()` has returned at time 50, before the deadline 200 of the waiting
`TryLock(200)`, nobody else contends and the state is 0 from then on, yet the
waiter returns false.  In `wakePath`, where the waiter took its snapshot before
the unlock, it returns true. -/
theorem C9_lost_wakeup :
    (run New (lockOnce 0 ++ [Event.call 1 (Op.TryLock 200), Event.step 1 false,
      Event.step 1 false, Event.tick 50] ++ unlockOnce 0)).threads 0 =
        Thread.returned Op.Unlock none ∧
    (run New (lockOnce 0 ++ [Event.call 1 (Op.TryLock 200), Event.step 1 false,
      Event.step 1 false, Event.tick 50] ++ unlockOnce 0)).now = 50 ∧
    (run New (lockOnce 0 ++ [Event.call 1 (Op.TryLock 200), Event.step 1 false,
      Event.step 1 false, Event.tick 50] ++ unlockOnce 0)).threads 1 =
        Thread.running (Op.TryLock 200) PC.tl_getch { timeout := 200, deadline := 200 } ∧
    (run New lostWakeup).threads 1 = Thread.returned (Op.TryLock 200) (some false) ∧
    (run New lostWakeup).m.v = 0 ∧
    (run New wakePath).threads 1 = Thread.returned (Op.TryLock 200) (some true) ∧
    (run New wakePath).m.v = -1 := by
  decide

/-- C10, counterexample: `RUnlock()` on the write-locked lock takes the state
from `-1` to `-2` before it panics, and the compare-and-swap of `RTryLock` on
`2^31 - 1` readers takes it to `-2^31`. -/
theorem C10_counterexample :
    (run New (lockOnce 0)).m.v = -1 ∧
    (run New (lockOnce 0 ++ runlockOnce 1)).m.v = -2 ∧
    (run New (lockOnce 0 ++ runlockOnce 1)).threads 1 =
      Thread.panicked Op.RUnlock "RUnlock() failed" ∧
    (run New (rlockMany 0 2147483647)).m.v = 2147483647 ∧
    (run New (rlockMany 0 2147483647 ++ rlockOnce 0)).m.v = -2147483648 := by
  refine ⟨by decide, by decide, by decide, ?_, ?_⟩
  · obtain ⟨a1, -, -, -, -, -, -, -⟩ :=
      run_rlockMany 2147483647 New 0 rfl (by decide) (by decide) (by decide)
    rw [a1]; decide
  · obtain ⟨a1, -, -, -, -, a6, -, -⟩ :=
      run_rlockMany 2147483647 New 0 rfl (by decide) (by decide) (by decide)
    have hv : (run New (rlockMany 0 2147483647)).m.v = 2147483647 := by
      rw [a1]; decide
    rw [run_append, run_rlockOnce _ 0 a6 (by rw [hv]; decide)]
    simp only [hv]
    decide

/-- C10 (as amended): a transition from a state `v` with `-1 <= v <= 2^31 - 1`
produces a value below `-1` only in two cases: the decrement of `RUnlock()` on
the write-locked state `-1`, which leaves `-2` and ends in the panic
"RUnlock() failed", and the compare-and-swap of `RTryLock` on `2^31 - 1`, which
leaves `-2^31`.  Every other step of `TryLock`, `RTryLock`, `Unlock` and
`RUnlock`, failed or not, leaves a value of at least `-1`. -/
theorem C10_transitions_below (w : World) (e : Event) (hv : -1 ≤ w.m.v)
    (hv1 : w.m.v ≤ 2147483647) (hlow : (apply w e).m.v < -1) :
    (∃ t p op l, e = Event.step t p ∧ w.threads t = Thread.running op PC.rul_add l ∧
      w.m.v = -1 ∧ (apply w e).m.v = -2 ∧
      (apply w e).threads t = Thread.panicked op "RUnlock() failed") ∨
    (∃ t p op l, e = Event.step t p ∧ w.threads t = Thread.running op PC.rtl_cas l ∧
      w.m.v = 2147483647 ∧ (apply w e).m.v = -2147483648) := by
  cases e with
  | call t op =>
    rw [show (apply w (Event.call t op)).m = w.m from (call_shared w t op).1] at hlow
    omega
  | tick d => simp only [apply] at hlow; omega
  | step t p =>
    simp only [apply] at hlow ⊢
    rcases step_cell w t p with ⟨h1, -, -⟩ | ⟨op, l, -, -, h1, -, -⟩ |
      ⟨op, l, hth, ha, h1, -, -⟩ | ⟨op, l, -, -, h1, -, -⟩ | ⟨op, l, hth, h1, -, -⟩
    · omega
    · omega
    · right
      have h2 : w.m.v = 2147483647 := by
        rw [h1, ← ha] at hlow; unfold wrap32 at hlow; omega
      refine ⟨t, p, op, l, rfl, hth, h2, ?_⟩
      rw [h1, ← ha, h2]; decide
    · omega
    · left
      have h2 : w.m.v = -1 := by
        rw [h1] at hlow; unfold wrap32 at hlow; omega
      refine ⟨t, p, op, l, rfl, hth, h2, by rw [h1, h2]; decide, ?_⟩
      rw [step_running w t p op PC.rul_add l hth]
      simp [exec, RUnlock, World.AddInt32, World.panic, World.setThread, h2, wrap32]

/-- C10, witness: the write-locked lock and the `RUnlock()` of goroutine 1. -/
theorem C10_transitions_below_witness :
    -1 ≤ (run New (lockOnce 0 ++ [Event.call 1 Op.RUnlock])).m.v ∧
    (run New (lockOnce 0 ++ [Event.call 1 Op.RUnlock])).m.v ≤ 2147483647 ∧
    (apply (run New (lockOnce 0 ++ [Event.call 1 Op.RUnlock])) (Event.step 1 false)).m.v
      < -1 ∧
    ((∃ t p op l, Event.step 1 false = Event.step t p ∧
      (run New (lockOnce 0 ++ [Event.call 1 Op.RUnlock])).threads t =
        Thread.running op PC.rul_add l ∧
      (run New (lockOnce 0 ++ [Event.call 1 Op.RUnlock])).m.v = -1 ∧
      (apply (run New (lockOnce 0 ++ [Event.call 1 Op.RUnlock]))
        (Event.step 1 false)).m.v = -2 ∧
      (apply (run New (lockOnce 0 ++ [Event.call 1 Op.RUnlock]))
        (Event.step 1 false)).threads t = Thread.panicked op "RUnlock() failed") ∨
    (∃ t p op l, Event.step 1 false = Event.step t p ∧
      (run New (lockOnce 0 ++ [Event.call 1 Op.RUnlock])).threads t =
        Thread.running op PC.rtl_cas l ∧
      (run New (lockOnce 0 ++ [Event.call 1 Op.RUnlock])).m.v = 2147483647 ∧
      (apply (run New (lockOnce 0 ++ [Event.call 1 Op.RUnlock]))
        (Event.step 1 false)).m.v = -2147483648)) :=
  have h1 : -1 ≤ (run New (lockOnce 0 ++ [Event.call 1 Op.RUnlock])).m.v := by decide
  have h2 : (run New (lockOnce 0 ++ [Event.call 1 Op.RUnlock])).m.v ≤ 2147483647 := by
    decide
  have h3 : (apply (run New (lockOnce 0 ++ [Event.call 1 Op.RUnlock]))
      (Event.step 1 false)).m.v < -1 := by decide
  ⟨h1, h2, h3, C10_transitions_below _ _ h1 h2 h3⟩

/-- C12, counterexample: with two readers, one `RUnlock()` returns without
panic and leaves one reader; the current channel is the one installed by
`New()` and no channel has been closed. -/
theorem C12_counterexample :
    (run New (rlockMany 0 2)).m.v = 2 ∧
    (run New (rlockMany 0 2 ++ runlockOnce 0)).threads 0 =
      Thread.returned Op.RUnlock none ∧
    (run New (rlockMany 0 2 ++ runlockOnce 0)).m.v = 1 ∧
    (run New (rlockMany 0 2 ++ runlockOnce 0)).m.ch = New.m.ch ∧
    (run New (rlockMany 0 2 ++ runlockOnce 0)).closed = [] := by
  decide

/-- C12 (as amended): in every reachable world, an `Unlock()` that returns
without panic (state `-1`) and an `RUnlock()` that brings the state to `0`
(state `1`) install a channel that never existed before as current, not closed,
and close the channel they replaced, and no other; an `RUnlock()` that leaves
other readers active (state above `1`) returns with the current channel and the
closed channels as they were. -/
theorem C12_unlock_broadcasts (w : World) (t : Nat) (hw : Reachable w)
    (hc : (w.threads t).callable = true) :
    (w.m.v = -1 →
      (run w (unlockOnce t)).threads t = Thread.returned Op.Unlock none ∧
      (run w (unlockOnce t)).m.ch = w.nextGate ∧
      (run w (unlockOnce t)).closed = w.m.ch :: w.closed ∧
      (run w (unlockOnce t)).m.ch ∉ (run w (unlockOnce t)).closed) ∧
    (w.m.v = 1 →
      (run w (runlockOnce t)).threads t = Thread.returned Op.RUnlock none ∧
      (run w (runlockOnce t)).m.ch = w.nextGate ∧
      (run w (runlockOnce t)).closed = w.m.ch :: w.closed ∧
      (run w (runlockOnce t)).m.ch ∉ (run w (runlockOnce t)).closed) ∧
    (1 < w.m.v →
      (run w (runlockOnce t)).threads t = Thread.returned Op.RUnlock none ∧
      (run w (runlockOnce t)).m.ch = w.m.ch ∧
      (run w (runlockOnce t)).closed = w.closed) := by
  have hg := reachable_gateInv w hw
  have hr := reachable_range w hw
  have hfresh : w.nextGate ∉ w.m.ch :: w.closed := by
    intro hmem
    rcases List.mem_cons.mp hmem with h | h
    · exact absurd (h ▸ hg.cur_lt) (Nat.lt_irrefl _)
    · exact absurd (hg.closed_lt _ h) (Nat.lt_irrefl _)
  refine ⟨fun hv => ?_, fun hv => ?_, fun hv => ?_⟩
  · rw [run_unlockOnce_held w t hc hv hg.cur_open]
    exact ⟨by simp, rfl, rfl, hfresh⟩
  · rw [run_runlockOnce_zero w t hc (by rw [hv]; decide) hg.cur_open]
    exact ⟨by simp, rfl, rfl, hfresh⟩
  · rw [run_runlockOnce_pos w t hc (by unfold wrap32; omega)]
    exact ⟨by simp, rfl, rfl⟩

/-- C12, witness: one reader on the lock fresh from `New()`. -/
theorem C12_unlock_broadcasts_witness :
    Reachable (run New (rlockOnce 0)) ∧
    ((run New (rlockOnce 0)).threads 0).callable = true ∧
    (run New (rlockOnce 0)).m.v = 1 ∧
    (run (run New (rlockOnce 0)) (runlockOnce 0)).closed = [0] :=
  ⟨⟨_, rfl⟩, by decide, by decide,
    ((C12_unlock_broadcasts (run New (rlockOnce 0)) 0 ⟨_, rfl⟩ (by decide)).2.1
      (by decide)).2.2.1⟩

theorem run_broadcast (w : World) (t : Nat) (op : Op) (l : Locals)
    (hth : w.threads t = Thread.running op PC.bc_make l) (hch : w.m.ch ∉ w.closed) :
    run w (steps t 3) =
      { w with m := { w.m with ch := w.nextGate }, closed := w.m.ch :: w.closed,
               nextGate := w.nextGate + 1,
               threads := Function.update w.threads t (Thread.returned op none) } := by
  simp [steps, run, apply, step, hth, exec, broadcast, World.goto, World.setThread,
    World.retUnit, World.panic, hch]

/-- A step that brings the state of a reachable world to `0` from another value
is the compare-and-swap of `Unlock` or the decrement of `RUnlock`, and it takes
its goroutine to the first statement of `broadcast`. -/
theorem step_to_zero (w : World) (t : Nat) (p : Bool) (hw : Reachable w)
    (hv : w.m.v ≠ 0) (hz : (step w t p).m.v = 0) :
    ∃ op l, (step w t p).threads t = Thread.running op PC.bc_make l ∧
      (step w t p).m.ch = w.m.ch ∧ (step w t p).closed = w.closed ∧
      (step w t p).nextGate = w.nextGate := by
  have hr := reachable_range w hw
  have hok := reachable_ok w hw
  rcases step_cell w t p with ⟨h1, -, -⟩ | ⟨op, l, -, -, h1, -, -⟩ |
    ⟨op, l, hth, ha, h1, -, -⟩ | ⟨op, l, hth, ha, h1, -, -⟩ | ⟨op, l, hth, h1, -, -⟩
  · rw [h1] at hz; exact absurd hz hv
  · rw [h1] at hz; cases hz
  · have h0 := hok t
    rw [hth] at h0
    have hn : 0 ≤ l.n := h0.2.2 rfl
    rw [h1] at hz; unfold wrap32 at hz; omega
  · refine ⟨op, l, ?_⟩
    rw [step_running w t p op PC.ul_cas l hth]
    simp [exec, Unlock, World.CompareAndSwapInt32, World.goto, World.setThread, ha]
  · have hv1 : wrap32 (w.m.v + -1) = 0 := by rw [← h1]; exact hz
    refine ⟨op, { l with n := 0 }, ?_⟩
    rw [step_running w t p op PC.rul_add l hth]
    simp [exec, RUnlock, World.AddInt32, World.goto, World.setThread, hv1]

theorem step_bc_make (w : World) (t : Nat) (p : Bool) (op : Op) (l : Locals)
    (hth : w.threads t = Thread.running op PC.bc_make l) :
    (step w t p).m = w.m ∧ (step w t p).closed = w.closed ∧
    (step w t p).threads t = Thread.running op PC.bc_swap { l with newCh := w.nextGate } := by
  rw [step_running w t p op _ l hth]
  simp [exec, broadcast, World.goto, World.setThread]

theorem step_bc_swap (w : World) (t : Nat) (p : Bool) (op : Op) (l : Locals)
    (hth : w.threads t = Thread.running op PC.bc_swap l) :
    (step w t p).closed = w.closed ∧
    (step w t p).threads t = Thread.running op PC.bc_close { l with ch := w.m.ch } := by
  rw [step_running w t p op _ l hth]
  simp [exec, broadcast, World.goto, World.setThread]

theorem step_bc_close (w : World) (t : Nat) (p : Bool) (op : Op) (l : Locals)
    (hth : w.threads t = Thread.running op PC.bc_close l) (hch : l.ch ∉ w.closed) :
    (step w t p).closed = l.ch :: w.closed := by
  rw [step_running w t p op _ l hth]
  simp [exec, broadcast, World.retUnit, World.setThread, hch]

theorem step_closed_grows (w : World) (t : Nat) (p : Bool) (g : Gate) (h : g ∈ w.closed) :
    g ∈ (step w t p).closed := by
  rcases step_gates w t p with ⟨-, e2, -, -⟩ | ⟨op, l, -, -, e2, -, -⟩ |
    ⟨op, l, -, -, e2, -, -⟩ | ⟨op, l, -, -, -, e2, -, -⟩
  · rw [e2]; exact h
  · rw [e2]; exact h
  · rw [e2]; exact h
  · rw [e2]; exact List.mem_cons_of_mem _ h

theorem firingDue_step (w : World) (t : Nat) (p : Bool) (g : Gate) (hg : GateInv w)
    (h : FiringDue w g) : FiringDue (step w t p) g := by
  rcases h with h | ⟨hcur, s, op, l, hs⟩ | ⟨s, op, l, hs, hl⟩
  · exact Or.inl (step_closed_grows w t p g h)
  · by_cases hst : s = t
    · subst hst
      rcases hs with hs | hs
      · obtain ⟨e1, -, e3⟩ := step_bc_make w s p op l hs
        exact Or.inr (Or.inl ⟨by rw [e1]; exact hcur, s, op, _, Or.inr e3⟩)
      · obtain ⟨-, e3⟩ := step_bc_swap w s p op l hs
        exact Or.inr (Or.inr ⟨s, op, _, e3, hcur.symm⟩)
    · have hs1 : (step w t p).threads s = Thread.running op PC.bc_make l ∨
          (step w t p).threads s = Thread.running op PC.bc_swap l := by
        rw [step_threads_other w t s p hst]; exact hs
      rcases step_gates w t p with ⟨e1, -, -, -⟩ | ⟨o, k, -, e1, -, -, -⟩ |
        ⟨o, k, hth, -, -, -, e4⟩ | ⟨o, k, -, -, e1, -, -, -⟩
      · exact Or.inr (Or.inl ⟨by rw [e1]; exact hcur, s, op, l, hs1⟩)
      · exact Or.inr (Or.inl ⟨by rw [e1]; exact hcur, s, op, l, hs1⟩)
      · exact Or.inr (Or.inr ⟨t, o, _, e4, hcur.symm⟩)
      · exact Or.inr (Or.inl ⟨by rw [e1]; exact hcur, s, op, l, hs1⟩)
  · by_cases hst : s = t
    · subst hst
      have hopen : l.ch ∉ w.closed := hg.own_open s l.ch (by rw [hs]; rfl)
      have e := step_bc_close w s p op l hs hopen
      exact Or.inl (by rw [e, hl]; exact List.mem_cons_self _ _)
    · exact Or.inr (Or.inr ⟨s, op, l, by rw [step_threads_other w t s p hst]; exact hs, hl⟩)

theorem call_running (w : World) (t s : Nat) (o op : Op) (pc : PC) (l : Locals)
    (h : w.threads s = Thread.running op pc l) :
    (call w t o).threads s = Thread.running op pc l := by
  unfold call
  split_ifs with hc
  · simp only [World.goto, World.setThread, Function.update_apply]
    split_ifs with hst
    · rw [hst] at h; rw [h] at hc; cases hc
    · exact h
  · exact h

theorem firingDue_run (es : List Event) (w : World) (g : Gate) (hg : GateInv w)
    (h : FiringDue w g) : FiringDue (run w es) g := by
  induction es generalizing w with
  | nil => exact h
  | cons e es ih =>
    refine ih (apply w e) (gateInv_apply w e hg) ?_
    cases e with
    | tick d => exact h
    | step t p => exact firingDue_step w t p g hg h
    | call t o =>
      obtain ⟨e1, e2, -, -, -, -⟩ := call_shared w t o
      simp only [apply]
      rcases h with h | ⟨hcur, s, op, l, hs⟩ | ⟨s, op, l, hs, hl⟩
      · exact Or.inl (by rw [e2]; exact h)
      · refine Or.inr (Or.inl ⟨by rw [e1]; exact hcur, s, op, l, ?_⟩)
        rcases hs with hs | hs
        · exact Or.inl (call_running w t s o op _ l hs)
        · exact Or.inr (call_running w t s o op _ l hs)
      · exact Or.inr (Or.inr ⟨s, op, l, call_running w t s o op _ l hs, hl⟩)

/-- After a step that brings the state of a reachable world to `0` from another
value, along every schedule: once no goroutine is inside `broadcast`, the
channel that was current at that step is closed. -/
theorem zero_step_fires (w : World) (t : Nat) (p : Bool) (es : List Event)
    (hw : Reachable w) (hv : w.m.v ≠ 0) (hz : (step w t p).m.v = 0)
    (hend : ∀ s op pc l, (run (step w t p) es).threads s = Thread.running op pc l →
      pc.inBroadcast = false) :
    w.m.ch ∈ (run (step w t p) es).closed := by
  obtain ⟨op, l, hth, e1, -, -⟩ := step_to_zero w t p hw hv hz
  have hw1 : Reachable (step w t p) := reachable_run w hw [Event.step t p]
  have h0 : FiringDue (step w t p) w.m.ch :=
    Or.inr (Or.inl ⟨e1.symm, t, op, l, Or.inl hth⟩)
  rcases firingDue_run es (step w t p) w.m.ch (reachable_gateInv _ hw1) h0 with
    h | ⟨-, s, o, k, hs | hs⟩ | ⟨s, o, k, hs, -⟩
  · exact h
  · exact absurd (hend s o _ k hs) (by decide)
  · exact absurd (hend s o _ k hs) (by decide)
  · exact absurd (hend s o _ k hs) (by decide)

/-- C13: in every reachable world, an `RUnlock()` whose decrement result is `0`
returns after installing a new channel and closing the one that was current;
one whose result is positive returns with the current channel and the closed
channels as they were; so a non-panicking `RUnlock()` replaces and closes the
channel exactly when the result is `0`.  Every step that brings the state to
`0` from another value is the first step of an `Unlock()` or `RUnlock()` and
enters `broadcast`, which, run to its end, closes the channel that was current
at that step and installs a new one; and whatever the other goroutines do after
that step, once no goroutine is inside `broadcast` the channel that was current
at that step is closed. -/
theorem C13_runlock_broadcasts_at_zero (w : World) (t : Nat) (hw : Reachable w) :
    ((w.threads t).callable = true → wrap32 (w.m.v + -1) = 0 →
      (run w (runlockOnce t)).threads t = Thread.returned Op.RUnlock none ∧
      (run w (runlockOnce t)).m.ch = w.nextGate ∧
      w.nextGate ≠ w.m.ch ∧
      (run w (runlockOnce t)).closed = w.m.ch :: w.closed ∧
      (run w (runlockOnce t)).m.ch ∉ (run w (runlockOnce t)).closed) ∧
    ((w.threads t).callable = true → 0 < wrap32 (w.m.v + -1) →
      (run w (runlockOnce t)).threads t = Thread.returned Op.RUnlock none ∧
      (run w (runlockOnce t)).m.ch = w.m.ch ∧
      (run w (runlockOnce t)).closed = w.closed) ∧
    ((w.threads t).callable = true → 0 ≤ wrap32 (w.m.v + -1) →
      ((run w (runlockOnce t)).closed ≠ w.closed ↔ wrap32 (w.m.v + -1) = 0)) ∧
    (∀ p, w.m.v ≠ 0 → (step w t p).m.v = 0 →
      (∃ op l, (step w t p).threads t = Thread.running op PC.bc_make l) ∧
      (run (step w t p) (steps t 3)).closed = w.m.ch :: w.closed ∧
      (run (step w t p) (steps t 3)).m.ch = w.nextGate ∧
      (run (step w t p) (steps t 3)).m.v = 0 ∧
      (∃ op, (run (step w t p) (steps t 3)).threads t = Thread.returned op none)) ∧
    (∀ p es, w.m.v ≠ 0 → (step w t p).m.v = 0 →
      (∀ s op pc l, (run (step w t p) es).threads s = Thread.running op pc l →
        pc.inBroadcast = false) →
      w.m.ch ∈ (run (step w t p) es).closed) := by
  have hg := reachable_gateInv w hw
  have hfresh : w.nextGate ∉ w.m.ch :: w.closed := by
    intro hmem
    rcases List.mem_cons.mp hmem with h | h
    · exact absurd (h ▸ hg.cur_lt) (Nat.lt_irrefl _)
    · exact absurd (hg.closed_lt _ h) (Nat.lt_irrefl _)
  have hzero : (w.threads t).callable = true → wrap32 (w.m.v + -1) = 0 →
      (run w (runlockOnce t)).threads t = Thread.returned Op.RUnlock none ∧
      (run w (runlockOnce t)).m.ch = w.nextGate ∧
      w.nextGate ≠ w.m.ch ∧
      (run w (runlockOnce t)).closed = w.m.ch :: w.closed ∧
      (run w (runlockOnce t)).m.ch ∉ (run w (runlockOnce t)).closed := by
    intro hc hv
    rw [run_runlockOnce_zero w t hc hv hg.cur_open]
    exact ⟨by simp, rfl, Nat.ne_of_gt hg.cur_lt, rfl, hfresh⟩
  have hpos : (w.threads t).callable = true → 0 < wrap32 (w.m.v + -1) →
      (run w (runlockOnce t)).threads t = Thread.returned Op.RUnlock none ∧
      (run w (runlockOnce t)).m.ch = w.m.ch ∧
      (run w (runlockOnce t)).closed = w.closed := by
    intro hc hv
    rw [run_runlockOnce_pos w t hc hv]
    exact ⟨by simp, rfl, rfl⟩
  refine ⟨hzero, hpos, ?_, ?_,
    fun p es hv hz hend => zero_step_fires w t p es hw hv hz hend⟩
  · intro hc hn
    constructor
    · intro hne
      by_contra h0
      exact hne (hpos hc (by omega)).2.2
    · intro h0 heq
      have := (hzero hc h0).2.2.2.1
      rw [heq] at this
      exact absurd this (List.cons_ne_self _ _).symm
  · intro p hv hz
    obtain ⟨op, l, hth, e1, e2, e3⟩ := step_to_zero w t p hw hv hz
    have hch : (step w t p).m.ch ∉ (step w t p).closed := by
      rw [e1, e2]; exact hg.cur_open
    rw [run_broadcast (step w t p) t op l hth hch]
    exact ⟨⟨op, l, hth⟩, by rw [e1, e2], by rw [e3], hz, ⟨op, by simp⟩⟩

/-- C13, witness: two readers on the lock fresh from `New()`, and the
`RUnlock()` of the first. -/
theorem C13_runlock_broadcasts_at_zero_witness :
    Reachable (run New (rlockMany 0 2)) ∧
    ((run New (rlockMany 0 2)).threads 0).callable = true ∧
    0 < wrap32 ((run New (rlockMany 0 2)).m.v + -1) ∧
    (run (run New (rlockMany 0 2)) (runlockOnce 0)).closed = [] :=
  ⟨⟨_, rfl⟩, by decide, by decide,
    ((C13_runlock_broadcasts_at_zero (run New (rlockMany 0 2)) 0 ⟨_, rfl⟩).2.1
      (by decide) (by decide)).2.2⟩

/-- A step that makes a running goroutine panic is the failed compare-and-swap
of `Unlock`, the decrement of `RUnlock` with a negative result, or the close of
a closed channel. -/
theorem step_panicked (w : World) (t : Nat) (p : Bool) (op op1 : Op) (pc : PC) (l : Locals)
    (msg : String) (hth : w.threads t = Thread.running op pc l)
    (hp : (step w t p).threads t = Thread.panicked op1 msg) :
    (pc = PC.ul_cas ∧ msg = "Unlock() failed") ∨
    (pc = PC.rul_add ∧ msg = "RUnlock() failed") ∨
    (pc = PC.bc_close ∧ l.ch ∈ w.closed) := by
  rw [step_running w t p op pc l hth] at hp
  cases pc <;>
  simp only [exec, TryLock, RTryLock, Unlock, RUnlock, broadcast, World.goto,
    World.retBool, World.retUnit, World.panic, World.setThread,
    World.CompareAndSwapInt32, World.AddInt32] at hp <;>
  (try split_ifs at hp) <;>
  simp_all

/-- No goroutine of a reachable world has panicked on closing a channel. -/
theorem no_close_panic (es : List Event) (w : World) (hg : GateInv w)
    (h : ∀ t op, w.threads t ≠ Thread.panicked op "close of closed channel") :
    ∀ t op, (run w es).threads t ≠ Thread.panicked op "close of closed channel" := by
  induction es generalizing w with
  | nil => exact h
  | cons e es ih =>
    refine ih (apply w e) (gateInv_apply w e hg) ?_
    intro t op hp
    cases e with
    | tick d => exact h t op hp
    | call s o =>
      simp only [apply, call] at hp
      split_ifs at hp with hc
      · simp only [World.goto, World.setThread, Function.update_apply] at hp
        split_ifs at hp with hst
        exact h t op hp
      · exact h t op hp
    | step s p =>
      simp only [apply] at hp
      by_cases hst : t = s
      · subst hst
        cases hth : w.threads t with
        | running op0 pc l =>
          rcases step_panicked w t p op0 op pc l _ hth hp with ⟨-, hm⟩ | ⟨-, hm⟩ | ⟨rfl, hm⟩
          · exact absurd hm (by decide)
          · exact absurd hm (by decide)
          · exact hg.own_open t l.ch (by rw [hth]; rfl) hm
        | idle =>
          rw [step_not_running w t p (by rw [hth]; intro _ _ _ hh; cases hh)] at hp
          exact h t op hp
        | returned o r =>
          rw [step_not_running w t p (by rw [hth]; intro _ _ _ hh; cases hh)] at hp
          exact h t op hp
        | panicked o m =>
          rw [step_not_running w t p (by rw [hth]; intro _ _ _ hh; cases hh)] at hp
          exact h t op hp
      · rw [step_threads_other w s t p hst] at hp
        exact h t op hp

/-- C14: in every world reachable from `New()` the current channel is not
closed, no channel has been closed twice and no goroutine has panicked on
closing a closed channel; every event closes no channel or exactly one that was
neither closed nor current; and `broadcast`, run from its first statement to
its end, installs as current a channel that did not exist before, not closed,
closes exactly the channel it replaced, and returns. -/
theorem C14_current_gate_unfired (w : World) (hw : Reachable w) :
    w.m.ch ∉ w.closed ∧
    w.closed.Nodup ∧
    (∀ t op, w.threads t ≠ Thread.panicked op "close of closed channel") ∧
    (∀ e, (apply w e).closed = w.closed ∨
      ∃ g, g ∉ w.closed ∧ g ≠ w.m.ch ∧ (apply w e).closed = g :: w.closed) ∧
    (∀ t op l, w.threads t = Thread.running op PC.bc_make l →
      (run w (steps t 3)).threads t = Thread.returned op none ∧
      (run w (steps t 3)).m.ch = w.nextGate ∧
      w.nextGate ∉ w.closed ∧ w.nextGate ≠ w.m.ch ∧
      (run w (steps t 3)).closed = w.m.ch :: w.closed ∧
      (run w (steps t 3)).m.ch ∉ (run w (steps t 3)).closed) := by
  have hg := reachable_gateInv w hw
  refine ⟨hg.cur_open, hg.closed_nodup, ?_, ?_, ?_⟩
  · obtain ⟨es, rfl⟩ := hw
    exact no_close_panic es New gateInv_New (by intro t op h; cases h)
  · intro e
    cases e with
    | tick d => exact Or.inl rfl
    | call t op => exact Or.inl (call_shared w t op).2.1
    | step t p =>
      simp only [apply]
      rcases step_gates w t p with ⟨-, e2, -, -⟩ | ⟨op, l, -, -, e2, -, -⟩ |
        ⟨op, l, -, -, e2, -, -⟩ | ⟨op, l, hth, hcl, -, e2, -, -⟩
      · exact Or.inl e2
      · exact Or.inl e2
      · exact Or.inl e2
      · exact Or.inr ⟨l.ch, hcl, hg.own_cur t l.ch (by rw [hth]; rfl), e2⟩
  · intro t op l hth
    have hfresh1 : w.nextGate ∉ w.closed := fun h =>
      absurd (hg.closed_lt _ h) (Nat.lt_irrefl _)
    have hfresh2 : w.nextGate ≠ w.m.ch := Nat.ne_of_gt hg.cur_lt
    rw [run_broadcast w t op l hth hg.cur_open]
    refine ⟨by simp, rfl, hfresh1, hfresh2, rfl, ?_⟩
    intro hmem
    rcases List.mem_cons.mp hmem with h | h
    · exact hfresh2 h
    · exact hfresh1 h

/-- C14, witness: goroutine 0 at the first statement of `broadcast` in its
`Unlock()` of the lock taken from `New()`. -/
theorem C14_current_gate_unfired_witness :
    Reachable (run New (lockOnce 0 ++ [Event.call 0 Op.Unlock, Event.step 0 false])) ∧
    (run (run New (lockOnce 0 ++ [Event.call 0 Op.Unlock, Event.step 0 false]))
      (steps 0 3)).closed = [0] ∧
    (run (run New (lockOnce 0 ++ [Event.call 0 Op.Unlock, Event.step 0 false]))
      (steps 0 3)).m.ch = 1 :=
  have h := (C14_current_gate_unfired
    (run New (lockOnce 0 ++ [Event.call 0 Op.Unlock, Event.step 0 false])) ⟨_, rfl⟩).2.2.2.2
    0 Op.Unlock {} rfl
  ⟨⟨_, rfl⟩, h.2.2.2.2.1, h.2.1⟩

/-- While a goroutine waits in `<-ch` on a channel that is not closed and no
other goroutine is inside a call, events other than calls change nothing but
the clock. -/
theorem blocked_forever (es : List Event) (w : World) (t : Nat) (op : Op) (l : Locals)
    (hth : w.threads t = Thread.running op PC.tl_recv l) (hch : l.ch ∉ w.closed)
    (hoth : ∀ s, s ≠ t → ∀ o pc k, w.threads s ≠ Thread.running o pc k)
    (hn : NoCalls es) :
    (run w es).m = w.m ∧ (run w es).closed = w.closed ∧
    (run w es).threads = w.threads := by
  induction es generalizing w with
  | nil => exact ⟨rfl, rfl, rfl⟩
  | cons e es ih =>
    cases e with
    | call s o => exact hn.elim
    | tick d =>
      exact ih (apply w (Event.tick d)) hth hch hoth hn
    | step s p =>
      have hstep : step w s p = w := by
        by_cases hst : s = t
        · subst hst
          rw [step_running w s p op PC.tl_recv l hth]
          simp [exec, TryLock, hch]
        · exact step_not_running w s p (hoth s hst)
      have := ih (apply w (Event.step s p)) (by simp only [apply, hstep]; exact hth)
        (by simp only [apply, hstep]; exact hch)
        (by simp only [apply, hstep]; exact hoth) hn
      simp only [run_cons]
      simp only [apply, hstep] at this ⊢
      exact this

theorem missedWake_others (s : Nat) (hs : s ≠ 1) (o : Op) (pc : PC) (k : Locals) :
    (run New missedWake).threads s ≠ Thread.running o pc k := by
  simp only [missedWake, lockOnce, steps, List.replicate, List.cons_append,
    List.nil_append, run, List.foldl, apply, call, New, Thread.callable, step, exec,
    TryLock, Unlock, broadcast, entry, World.goto, World.setThread, World.retBool,
    World.retUnit, World.panic, World.CompareAndSwapInt32]
  simp [Function.update_apply, hs]
  split_ifs <;> simp

/-- C15: in the schedule `missedWake` the compare-and-swap of the waiting
`TryLock(-1)` fails while the state is still `-1`, before the state write of
`Unlock()`; the waiter takes its channel snapshot after the new channel has
been swapped in, so it waits on the new channel, which is not closed.  At the
end `Unlock()` has returned, only the old channel is closed, the state is `0`,
and the waiter is blocked in `<-ch`; it stays so, with the state `0`, along
every continuation without further calls, whatever time passes.  A later
`Lock()` and `Unlock()` of another goroutine wake it, and it then acquires. -/
theorem C15_missed_wakeup :
    (run New (lockOnce 0 ++ [Event.call 1 (Op.TryLock (-1)), Event.step 1 false,
      Event.step 1 false])).m.v = -1 ∧
    (run New (lockOnce 0 ++ [Event.call 1 (Op.TryLock (-1)), Event.step 1 false,
      Event.step 1 false])).threads 1 =
        Thread.running (Op.TryLock (-1)) PC.tl_getch { timeout := -1, deadline := -1 } ∧
    (run New (lockOnce 0 ++ [Event.call 1 (Op.TryLock (-1)), Event.step 1 false,
      Event.step 1 false] ++ [Event.call 0 Op.Unlock, Event.step 0 false,
      Event.step 0 false, Event.step 0 false])).m = { v := 0, ch := 1 } ∧
    (run New missedWake).threads 0 = Thread.returned Op.Unlock none ∧
    (run New missedWake).m = { v := 0, ch := 1 } ∧
    (run New missedWake).closed = [0] ∧
    (run New missedWake).threads 1 =
      Thread.running (Op.TryLock (-1)) PC.tl_recv
        { timeout := -1, deadline := -1, ch := 1 } ∧
    (∀ es, NoCalls es →
      (run New (missedWake ++ es)).threads 1 =
        Thread.running (Op.TryLock (-1)) PC.tl_recv
          { timeout := -1, deadline := -1, ch := 1 } ∧
      (run New (missedWake ++ es)).m.v = 0) ∧
    (run New (missedWake ++ lockOnce 2 ++ unlockOnce 2 ++ steps 1 2)).threads 1 =
      Thread.returned (Op.TryLock (-1)) (some true) := by
  refine ⟨by decide, by decide, by decide, by decide, by decide, by decide, by decide,
    ?_, by decide⟩
  intro es hn
  have h1 : (run New missedWake).threads 1 =
      Thread.running (Op.TryLock (-1)) PC.tl_recv
        { timeout := -1, deadline := -1, ch := 1 } := by decide
  obtain ⟨a1, -, a3⟩ := blocked_forever es (run New missedWake) 1 _ _ h1 (by decide)
    (fun s hs => missedWake_others s hs) hn
  rw [run_append, a1, a3]
  exact ⟨h1, by decide⟩

/-- C15, witness: after `missedWake` a long time passes and the waiter is
scheduled again. -/
theorem C15_missed_wakeup_witness :
    NoCalls [Event.tick 1000000, Event.step 1 false] ∧
    (run New (missedWake ++ [Event.tick 1000000, Event.step 1 false])).m.v = 0 :=
  ⟨by decide, (C15_missed_wakeup.2.2.2.2.2.2.2.1 _ (by decide)).2⟩

theorem run_rtryLockZero_held (w : World) (t : Nat) (hc : (w.threads t).callable = true)
    (hv : w.m.v < 0) :
    run w (rtryLock t 0 4) =
      { w with threads :=
          Function.update w.threads t (Thread.returned (Op.RTryLock 0) (some false)) } := by
  have hv1 : ¬ 0 ≤ w.m.v := by omega
  simp [rtryLock, steps, run, apply, call, hc, step, exec, RTryLock, entry, World.goto,
    World.setThread, World.retBool, World.CompareAndSwapInt32, hv1]

/-- C16: in every reachable world, an `RUnlock()` that panics leaves the state
decremented by one.  On an unlocked lock it panics with "RUnlock() failed" and
leaves `-1`; then `TryLock(0)` and `RTryLock(0)` of another goroutine return
false, and `Unlock()` of another goroutine, which never locked, returns
without panic and leaves `0`.  On a write-locked lock it panics and leaves
`-2`; then `Unlock()` panics with "Unlock() failed". -/
theorem C16_runlock_not_atomic (w : World) (t s : Nat) (hw : Reachable w)
    (hc : (w.threads t).callable = true) (hcs : (w.threads s).callable = true)
    (hst : s ≠ t) :
    (∀ op msg, (run w (runlockOnce t)).threads t = Thread.panicked op msg →
      msg = "RUnlock() failed" ∧ (run w (runlockOnce t)).m.v = w.m.v - 1) ∧
    (w.m.v = 0 →
      (run w (runlockOnce t)).threads t = Thread.panicked Op.RUnlock "RUnlock() failed" ∧
      (run w (runlockOnce t)).m.v = -1 ∧
      (run w (runlockOnce t ++ tryLockZero s)).threads s =
        Thread.returned (Op.TryLock 0) (some false) ∧
      (run w (runlockOnce t ++ rtryLock s 0 4)).threads s =
        Thread.returned (Op.RTryLock 0) (some false) ∧
      (run w (runlockOnce t ++ unlockOnce s)).threads s =
        Thread.returned Op.Unlock none ∧
      (run w (runlockOnce t ++ unlockOnce s)).m.v = 0) ∧
    (w.m.v = -1 →
      (run w (runlockOnce t)).threads t = Thread.panicked Op.RUnlock "RUnlock() failed" ∧
      (run w (runlockOnce t)).m.v = -2 ∧
      (run w (runlockOnce t ++ unlockOnce s)).threads s =
        Thread.panicked Op.Unlock "Unlock() failed" ∧
      (run w (runlockOnce t ++ unlockOnce s)).m.v = -2) := by
  have hg := reachable_gateInv w hw
  have hr := reachable_range w hw
  have hneg : wrap32 (w.m.v + -1) < 0 →
      run w (runlockOnce t) =
        { w with m := { w.m with v := wrap32 (w.m.v + -1) }, readers := w.readers - 1,
                 threads := Function.update w.threads t
                   (Thread.panicked Op.RUnlock "RUnlock() failed") } :=
    run_runlockOnce_neg w t hc
  have hs1 : wrap32 (w.m.v + -1) < 0 →
      ((run w (runlockOnce t)).threads s).callable = true := by
    intro h; rw [hneg h]; simp only [Function.update_noteq hst]; exact hcs
  refine ⟨?_, ?_, ?_⟩
  · intro op msg hp
    rcases (by omega : wrap32 (w.m.v + -1) < 0 ∨ wrap32 (w.m.v + -1) = 0 ∨
      0 < wrap32 (w.m.v + -1)) with h | h | h
    · rw [hneg h] at hp ⊢
      simp only [Function.update_same, Thread.panicked.injEq] at hp
      refine ⟨hp.2.symm, ?_⟩
      show wrap32 (w.m.v + -1) = w.m.v - 1
      unfold wrap32 at h ⊢
      omega
    · rw [run_runlockOnce_zero w t hc h hg.cur_open] at hp
      simp at hp
    · rw [run_runlockOnce_pos w t hc h] at hp
      simp at hp
  · intro hv
    have h : wrap32 (w.m.v + -1) < 0 := by rw [hv]; decide
    have e1 := hneg h
    have hv1 : (run w (runlockOnce t)).m.v = -1 := by rw [e1, hv]; rfl
    have hch1 : (run w (runlockOnce t)).m.ch ∉ (run w (runlockOnce t)).closed := by
      rw [e1]; exact hg.cur_open
    refine ⟨by rw [e1]; simp, hv1, ?_, ?_, ?_, ?_⟩
    · rw [run_append, run_tryLockZero _ s (hs1 h) (by rw [hv1]; decide)]
      simp
    · rw [run_append, run_rtryLockZero_held _ s (hs1 h) (by rw [hv1]; decide)]
      simp
    · rw [run_append, run_unlockOnce_held _ s (hs1 h) hv1 hch1]
      simp
    · rw [run_append, run_unlockOnce_held _ s (hs1 h) hv1 hch1]
  · intro hv
    have h : wrap32 (w.m.v + -1) < 0 := by rw [hv]; decide
    have e1 := hneg h
    have hv1 : (run w (runlockOnce t)).m.v = -2 := by rw [e1, hv]; rfl
    refine ⟨by rw [e1]; simp, hv1, ?_, ?_⟩
    · rw [run_append, run_unlockOnce_misuse _ s (hs1 h) (by rw [hv1]; decide)]
      simp
    · rw [run_append, run_unlockOnce_misuse _ s (hs1 h) (by rw [hv1]; decide)]
      exact hv1

/-- C16, witness: goroutine 0 misuses `RUnlock()` on the lock fresh from
`New()`, goroutine 1 then calls `Unlock()`. -/
theorem C16_runlock_not_atomic_witness :
    Reachable New ∧ (New.threads 0).callable = true ∧ (New.threads 1).callable = true ∧
    1 ≠ 0 ∧ (run New (runlockOnce 0)).m.v = -1 ∧
    (run New (runlockOnce 0 ++ unlockOnce 1)).threads 1 = Thread.returned Op.Unlock none :=
  have h := (C16_runlock_not_atomic New 0 1 ⟨[], rfl⟩ rfl rfl (by decide)).2.1 rfl
  ⟨⟨[], rfl⟩, rfl, rfl, by decide, h.2.1, h.2.2.2.2.1⟩

/-- C17: the state is an `int32` and the increment of `RTryLock` wraps.  In
every reachable world a first attempt of `RTryLock` on a state `n` with
`0 <= n < 2^31 - 1` returns true and leaves `n + 1 > 0`; on `n = 2^31 - 1` it
returns true as well and leaves `-2^31`.  On a state below `-1` every
compare-and-swap of `TryLock` and every load or compare-and-swap of `RTryLock`
fails and leaves the lock as it was, and `TryLock(0)` and `RTryLock(0)` return
false.  The state `-2^31` is reached from `New()` by `2^31` calls of `RLock()`. -/
theorem C17_reader_count_wraps (w : World) (t : Nat) (timeout : Int) (hw : Reachable w)
    (hc : (w.threads t).callable = true) :
    (0 ≤ w.m.v → w.m.v < 2147483647 →
      (run w (rtryLock t timeout 3)).threads t =
        Thread.returned (Op.RTryLock timeout) (some true) ∧
      (run w (rtryLock t timeout 3)).m.v = w.m.v + 1 ∧
      0 < (run w (rtryLock t timeout 3)).m.v) ∧
    (w.m.v = 2147483647 →
      (run w (rtryLock t timeout 3)).threads t =
        Thread.returned (Op.RTryLock timeout) (some true) ∧
      (run w (rtryLock t timeout 3)).m.v = -2147483648 ∧
      (run w (rtryLock t timeout 3)).m.v = wrap32 (w.m.v + 1)) ∧
    (w.m.v < -1 → ∀ s p op l,
      (w.threads s = Thread.running op PC.tl_cas l →
        (step w s p).m = w.m ∧
        (step w s p).threads s = Thread.running op PC.tl_getch l) ∧
      (w.threads s = Thread.running op PC.rtl_load l →
        (step w s p).m = w.m ∧
        (step w s p).threads s = Thread.running op PC.rtl_getch { l with n := w.m.v }) ∧
      (w.threads s = Thread.running op PC.rtl_cas l →
        (step w s p).m = w.m ∧
        (step w s p).threads s = Thread.running op PC.rtl_getch l)) ∧
    (w.m.v < -1 →
      (run w (tryLockZero t)).threads t = Thread.returned (Op.TryLock 0) (some false) ∧
      (run w (tryLockZero t)).m = w.m ∧
      (run w (rtryLock t 0 4)).threads t = Thread.returned (Op.RTryLock 0) (some false) ∧
      (run w (rtryLock t 0 4)).m = w.m) ∧
    (run New (rlockMany 0 2147483648)).m.v = -2147483648 := by
  have hok := reachable_ok w hw
  refine ⟨?_, ?_, ?_, ?_, ?_⟩
  · intro h0 h1
    rw [run_rtryLock_free w t timeout hc h0]
    have hwr : wrap32 (w.m.v + 1) = w.m.v + 1 := by unfold wrap32; omega
    refine ⟨by simp, hwr, ?_⟩
    show 0 < wrap32 (w.m.v + 1)
    rw [hwr]; omega
  · intro hv
    rw [run_rtryLock_free w t timeout hc (by rw [hv]; decide)]
    refine ⟨by simp, ?_, rfl⟩
    show wrap32 (w.m.v + 1) = -2147483648
    rw [hv]; decide
  · intro hv s p op l
    refine ⟨fun hth => ?_, fun hth => ?_, fun hth => ?_⟩
    · rw [step_running w s p op PC.tl_cas l hth]
      have h0 : ¬ w.m.v = 0 := by omega
      simp [exec, TryLock, World.CompareAndSwapInt32, World.goto, World.setThread, h0]
    · rw [step_running w s p op PC.rtl_load l hth]
      have h0 : ¬ 0 ≤ w.m.v := by omega
      simp [exec, RTryLock, World.goto, World.setThread, h0]
    · have h0 := hok s
      rw [hth] at h0
      have hn : 0 ≤ l.n := h0.2.2 rfl
      have h1 : ¬ w.m.v = l.n := by omega
      rw [step_running w s p op PC.rtl_cas l hth]
      simp [exec, RTryLock, World.CompareAndSwapInt32, World.goto, World.setThread, h1]
  · intro hv
    rw [run_tryLockZero w t hc (by omega), run_rtryLockZero_held w t hc (by omega)]
    exact ⟨by simp, rfl, by simp, rfl⟩
  · obtain ⟨a1, -, -, -, -, -, -, -⟩ :=
      run_rlockMany 2147483648 New 0 rfl (by decide) (by decide) (by decide)
    rw [a1]; decide

/-- C17, witness: a first reader on the lock fresh from `New()`. -/
theorem C17_reader_count_wraps_witness :
    Reachable New ∧ (New.threads 0).callable = true ∧
    (run New (rtryLock 0 0 3)).m.v = New.m.v + 1 :=
  ⟨⟨[], rfl⟩, rfl,
    ((C17_reader_count_wraps New 0 0 ⟨[], rfl⟩ rfl).1 (by decide) (by decide)).2.1⟩

/-- C8, counterexample to "n -> n+1": with `2^31 - 1` readers, `RLock()` and
`RTryLock(-1)` return, `RTryLock(-1)` with true, by a compare-and-swap that
found `2^31 - 1` and left `-2^31`, not `2^31`. -/
theorem C8_counterexample :
    (run New (rlockMany 0 2147483647)).m.v = 2147483647 ∧
    (run New (rlockMany 0 2147483647 ++ rlockOnce 1)).threads 1 =
      Thread.returned Op.RLock none ∧
    (run New (rlockMany 0 2147483647 ++ rlockOnce 1)).m.v = -2147483648 ∧
    (run New (rlockMany 0 2147483647 ++ rtryLock 1 (-1) 3)).threads 1 =
      Thread.returned (Op.RTryLock (-1)) (some true) ∧
    (run New (rlockMany 0 2147483647 ++ rtryLock 1 (-1) 3)).m.v = -2147483648 ∧
    (run New (rlockMany 0 2147483647 ++ rtryLock 1 (-1) 3)).m.v ≠ 2147483647 + 1 := by
  obtain ⟨a1, -, -, -, -, -, -, -⟩ :=
    run_rlockMany 2147483647 New 0 rfl (by decide) (by decide) (by decide)
  have hv : (run New (rlockMany 0 2147483647)).m.v = 2147483647 := by
    rw [a1]; decide
  have hc : ((run New (rlockMany 0 2147483647)).threads 1).callable = true := by
    rw [rlockMany_threads_other 2147483647 New 0 1 (by decide)]; rfl
  have h1 := run_rlockOnce (run New (rlockMany 0 2147483647)) 1 hc (by rw [hv]; decide)
  have h2 := run_rtryLock_free (run New (rlockMany 0 2147483647)) 1 (-1) hc
    (by rw [hv]; decide)
  rw [← run_append] at h1 h2
  refine ⟨hv, by rw [h1]; simp, ?_, by rw [h2]; simp, ?_, ?_⟩
  · rw [h1]; simp only [hv]; decide
  · rw [h2]; simp only [hv]; decide
  · rw [h2]; simp only [hv]; decide

end trylock
